import Mathlib

/-! The tool `kaa_rsa_key_gen`: header generation for the Kaa endpoint RSA keys.

A shallow embedding of `client/client-multi/client-c/tools/kaa_encryption/kaa_rsa_key_gen.c`.

* Bytes (`uint8_t`) are `Fin 256`; `size_t` and `int` values are `Nat` and `Int`.
* A fixed-capacity C array is a `Buffer n`; a `uint8_t *` is a `Ptr` (memory block and
  offset).  A read outside the block is undefined behaviour: the outcome `none` of `UB`.
* The mbedTLS entry points the tool calls are the fields of `Mbedtls`.
* The output file and standard output are the two fields of `World`.  A write to the open
  stream succeeds: the source does not look at the result of `fwrite`.
-/

namespace Kaa

/-! ## Constants of the source -/

def KAA_KEYS_STORAGE : String := "kaa_keys_gen.h"

def KAA_RSA_KEY_LENGTH : Nat := 2048
def KAA_RSA_EXPONENT : Nat := 65537

def KAA_RSA_PUBLIC_KEY_LENGTH_MAX : Nat := 294
def KAA_RSA_PRIVATE_KEY_LENGTH_MAX : Nat := 1200

def SHA1_LENGTH : Nat := 20

def EXIT_SUCCESS : Int := 0
def EXIT_FAILURE : Int := 1

/-! ## Undefined behaviour -/

/-- The outcome of a C computation: `some a` when it is defined and gives `a`, `none` when it
reads outside a memory block. -/
def UB (α : Type) : Type := Option α

/-- Sequencing: the continuation runs on a defined outcome. -/
@[noinline] def UB.bind {α β : Type} (x : UB α) (f : α → UB β) : UB β :=
  match x with
  | none => none
  | some a => f a

instance : Monad UB where
  pure := fun a => some a
  bind := UB.bind

/-! ## Memory -/

/-- A byte, the C type of the same name. -/
abbrev uint8_t : Type := Fin 256

/-- A C array `uint8_t a[n]`. -/
abbrev Buffer (n : Nat) : Type := { l : List uint8_t // l.length = n }

/-- The array `uint8_t a[n]` with every element zero (static storage, `memset(a, 0, n)`). -/
def Buffer.zero (n : Nat) : Buffer n := ⟨List.replicate n 0, List.length_replicate n 0⟩

/-- A `uint8_t *`: the block it points into and the offset inside the block. -/
structure Ptr where
  mem : List uint8_t
  off : Int
deriving DecidableEq, Repr

/-- Array-to-pointer decay. -/
def Buffer.ptr {n : Nat} (b : Buffer n) : Ptr := ⟨b.val, 0⟩

/-- Pointer arithmetic `p + k`. -/
def Ptr.add (p : Ptr) (k : Int) : Ptr := ⟨p.mem, p.off + k⟩

/-- The element `p[i]`; `none` when the access is outside the block. -/
def Ptr.read (p : Ptr) (i : Nat) : Option uint8_t :=
  if 0 ≤ p.off + i then p.mem.get? (p.off + i).toNat else none

/-- The `k` bytes `p[i], ..., p[i+k-1]`. -/
def Ptr.bytes_from (p : Ptr) : Nat → Nat → Option (List uint8_t)
  | 0, _ => some []
  | k + 1, i =>
    match p.read i with
    | none => none
    | some b => (p.bytes_from k (i + 1)).map (b :: ·)

/-- The `n` bytes `p[0], ..., p[n-1]`; `none` when one of them is outside the block. -/
def Ptr.bytes (p : Ptr) (n : Nat) : Option (List uint8_t) :=
  p.bytes_from n 0

/-- The structure which contains the endpoint keys. -/
structure endpoint_keys_t where
  public_key : Buffer KAA_RSA_PUBLIC_KEY_LENGTH_MAX
  private_key : Buffer KAA_RSA_PRIVATE_KEY_LENGTH_MAX
  public_key_length : Nat
  private_key_length : Nat

/-! ## Formatted output -/

/-- The character of a digit below sixteen, as the conversions `%zu` and `%02X` print it. -/
def hexDigitUpper (d : Nat) : Char :=
  "0123456789ABCDEF".toList.getD d '?'

/-- Digits of `n` in the given base, most significant first, in front of `acc`. -/
def natDigits (base : Nat) : Nat → Nat → List Nat → List Nat
  | 0, _, acc => acc
  | fuel + 1, n, acc =>
    if n < base then n :: acc else natDigits base fuel (n / base) (n % base :: acc)

/-- The conversion `%zu`. -/
def fmt_zu (n : Nat) : List Char :=
  (natDigits 10 (n + 1) n []).map hexDigitUpper

/-- The conversion `%02X`: upper-case hexadecimal, zero-padded to a width of two. -/
def fmt_02X (v : Nat) : List Char :=
  let ds := (natDigits 16 (v + 1) v []).map hexDigitUpper
  List.replicate (2 - ds.length) '0' ++ ds

/-- The text `sprintf(buffer, fmt, arg)` produces, for the conversions the tool uses. -/
def sprintf : List Char → Nat → List Char
  | '%' :: 'z' :: 'u' :: rest, a => fmt_zu a ++ sprintf rest a
  | '%' :: '0' :: '2' :: 'X' :: rest, a => fmt_02X a ++ sprintf rest a
  | c :: rest, a => c :: sprintf rest a
  | [], _ => []

/-! ## File structure -/

def GUARD_IFNDEF : List Char := "#ifndef KAA_RSA_KEYS_H_\n".toList
def GUARD_DEF : List Char := "#define KAA_RSA_KEYS_H_\n\n\n".toList
def PUBLIC_KEY_LEN : List Char := "#define KAA_RSA_PUBLIC_KEY_LENGTH  %zu\n".toList
def PRIVATE_KEY_LEN : List Char := "#define KAA_RSA_PRIVATE_KEY_LENGTH %zu\n\n\n".toList
def KAA_SHA1_PUB_LEN : List Char := "#define KAA_SHA1_PUB_LEN %zu\n".toList
def KAA_SHA1_PUB_BASE64_LEN : List Char := "#define KAA_SHA1_PUB_BASE64_LEN %zu\n\n\n".toList
/-- The macro `KEY_STARTS`, an opening brace and a blank. -/
def KEY_STARTS : List Char := "\x7b ".toList
def KEY_SEPARATOR : List Char := ", ".toList
/-- The macro `KEY_ENDS`: a blank, a closing brace, a semicolon and two newlines. -/
def KEY_ENDS : List Char := " \x7d;\n\n".toList
def KAA_RSA_PUBLIC_KEY : List Char := "uint8_t KAA_RSA_PUBLIC_KEY[] = ".toList
def KAA_RSA_PRIVATE_KEY : List Char := "uint8_t KAA_RSA_PRIVATE_KEY[] = ".toList
def KAA_SHA1_PUB : List Char := "uint8_t KAA_SHA1_PUB[] = ".toList
def KAA_SHA1_PUB_BASE64 : List Char := "uint8_t KAA_SHA1_PUB_BASE64[] = ".toList
def GUARD_ENDIF : List Char := "#endif /* KAA_RSA_KEYS_H */\n".toList

/-- The expression `sizeof(s) - 1` on a string literal: its length without the terminator. -/
def sizeof_lit (s : List Char) : Nat := (s.length + 1) - 1

/-- The call `fwrite(ptr, size, 1, fd)`: the first `size` characters at `ptr` are appended
to the stream; `none` when fewer are readable. -/
def fwrite (ptr : List Char) (size : Nat) (fd : List Char) : UB (List Char) :=
  if size ≤ ptr.length then pure (fd ++ ptr.take size) else none

/-- The loop of `store_key`, from index `i` with `k` iterations left. -/
def store_key_loop (key : Ptr) : Nat → Nat → List Char → UB (List Char)
  | 0, _, fd => pure fd
  | k + 1, i, fd =>
    match key.read i with
    | none => none
    | some b =>
      let buffer := sprintf "0x%02X, ".toList b.val
      let written := buffer.length
      match fwrite buffer written fd with
      | none => none
      | some fd => store_key_loop key k (i + 1) fd

/-- The stream after the call; `pfx` is the parameter `prefix` of the source. -/
def store_key (fd : List Char) (pfx : List Char) (prefix_size : Nat)
    (key : Ptr) (length : Nat) : UB (List Char) := do
  let fd ← fwrite pfx prefix_size fd
  let fd ← fwrite KEY_STARTS (sizeof_lit KEY_STARTS) fd
  let fd ← store_key_loop key length 0 fd
  fwrite KEY_ENDS (sizeof_lit KEY_ENDS) fd

/-! ## The environment: mbedTLS, the file system, standard output -/

/-- The mbedTLS functions the tool calls.  The first three are the return values of the calls
made by `rsa_genkey`.  The two DER writers receive the destination array and the size passed
and give the return value and the array afterwards.  The field `sha1` is the chain
`mbedtls_sha1_starts`, `_update`, `_finish` on a byte sequence, and `base64_encode` receives the
destination array, its declared size and the source bytes and gives the return value, the value
stored in `*olen` and the destination afterwards. -/
structure Mbedtls where
  ctr_drbg_seed : Int
  pk_setup : Int
  rsa_gen_key : Int
  pk_write_pubkey_der : (cap : Nat) → Buffer cap → Nat → Int × Buffer cap
  pk_write_key_der : (cap : Nat) → Buffer cap → Nat → Int × Buffer cap
  sha1 : List uint8_t → Buffer SHA1_LENGTH
  base64_encode : (cap : Nat) → Buffer cap → Nat → List uint8_t → Int × Nat × Buffer cap

/-- What the run finds: whether `fopen(KAA_KEYS_STORAGE, "w")` succeeds, and the indeterminate
initial contents of the local array `sha1` of `kaa_keys_store`. -/
structure Env where
  fopen_ok : Bool
  sha1_uninit : Buffer SHA1_LENGTH

/-- The observable state: the contents of the file `KAA_KEYS_STORAGE` (`none` when it does not
exist) and the text printed on standard output. -/
structure World where
  file : Option (List Char)
  stdout : List Char
deriving DecidableEq, Repr

/-- The call `printf(s)` without conversions. -/
def printf (s : String) (w : World) : World :=
  { w with stdout := w.stdout ++ s.toList }

/-- The conversion `%i`. -/
def fmt_i (v : Int) : List Char :=
  if v < 0 then '-' :: fmt_zu v.natAbs else fmt_zu v.natAbs

/-- The conversion `(int) n` of a `size_t` (two's complement, 32-bit `int`). -/
def int_of_size_t (n : Nat) : Int :=
  if n % 2 ^ 32 < 2 ^ 31 then (n % 2 ^ 32 : Nat) else ((n % 2 ^ 32 : Nat) : Int) - 2 ^ 32

/-- The conversion of an `int` to `size_t` (64 bits). -/
def size_t_of_int (i : Int) : Nat := (i % 2 ^ 64).toNat

/-! ## Key generation -/

def rsa_genkey (lib : Mbedtls) : Int :=
  let ret := lib.ctr_drbg_seed
  if ret ≠ 0 then ret else
  let ret := lib.pk_setup
  if ret ≠ 0 then ret else
  let ret := lib.rsa_gen_key
  ret

/-- The four pointer arguments are the fields of the global `keys`, which is threaded through. -/
def kaa_write_keys (lib : Mbedtls) (keys : endpoint_keys_t) : Int × endpoint_keys_t :=
  let r := lib.pk_write_pubkey_der _ keys.public_key keys.public_key_length
  let key_length := r.1
  let keys := { keys with public_key := r.2 }
  if key_length < 0 then (-1, keys) else
  let keys := { keys with public_key_length := size_t_of_int key_length }
  let r := lib.pk_write_key_der _ keys.private_key keys.private_key_length
  let key_length := r.1
  let keys := { keys with private_key := r.2 }
  if key_length < 0 then (-1, keys) else
  let keys := { keys with private_key_length := size_t_of_int key_length }
  (0, keys)

def rsa_keys_create (lib : Mbedtls) (keys : endpoint_keys_t) : Int × endpoint_keys_t :=
  if rsa_genkey lib ≠ 0 then (-1, keys) else
  kaa_write_keys lib keys

/-! ## Fingerprint and storage -/

def sha1_store (fd : List Char) (sha1 : Ptr) (sha1_len : Nat) (sha1_base64 : Ptr)
    (sha1_base64_len : Nat) : UB (Int × List Char) := do
  let fd ← store_key fd KAA_SHA1_PUB (sizeof_lit KAA_SHA1_PUB) sha1 sha1_len
  let fd ← store_key fd KAA_SHA1_PUB_BASE64 (sizeof_lit KAA_SHA1_PUB_BASE64) sha1_base64
    sha1_base64_len
  return (0, fd)

/-- A null `key` is `none`.  The result is the return value, the array `sha1` afterwards and
the state. -/
def sha1_from_public_key (lib : Mbedtls) (w : World) (key : Option Ptr) (length : Nat)
    (sha1 : Buffer SHA1_LENGTH) : UB (Int × Buffer SHA1_LENGTH × World) :=
  match key with
  | none => pure (-1, sha1, printf "Can't generate sha1\n" w)
  | some key =>
    if length = 0 then pure (-1, sha1, printf "Can't generate sha1\n" w) else do
      let input ← key.bytes (size_t_of_int (int_of_size_t length))
      return (0, lib.sha1 input, w)

/-- The result is the return value, the destination afterwards, `*output_len` afterwards and
the state. -/
def sha1_to_base64 (lib : Mbedtls) (w : World) (key : Option Ptr) (length : Nat) {cap : Nat}
    (base64 : Buffer cap) (base64_len : Nat) (output_len : Nat) :
    UB (Int × Buffer cap × Nat × World) :=
  match key with
  | none =>
    pure (-1, base64, output_len,
      printf "Can't generate base64 representation of the public key\n" w)
  | some key =>
    if length = 0 then
      pure (-1, base64, output_len,
        printf "Can't generate base64 representation of the public key\n" w)
    else do
      let src ← key.bytes length
      let r := lib.base64_encode cap base64 base64_len src
      return (r.1, r.2.2, r.2.1, w)

def kaa_keys_store (lib : Mbedtls) (env : Env) (keys : endpoint_keys_t) (w : World)
    (public_key : Ptr) (public_key_length : Nat) (private_key : Ptr)
    (private_key_length : Nat) : UB (Int × World) :=
  if ¬ env.fopen_ok then pure (-1, w) else do
    let w : World := { w with file := some [] }
    let fd : List Char := []
    let fd ← fwrite GUARD_IFNDEF (sizeof_lit GUARD_IFNDEF) fd
    let fd ← fwrite GUARD_DEF (sizeof_lit GUARD_DEF) fd
    let buffer := sprintf PUBLIC_KEY_LEN public_key_length
    let fd ← fwrite buffer buffer.length fd
    let buffer := sprintf PRIVATE_KEY_LEN private_key_length
    let fd ← fwrite buffer buffer.length fd
    let key_begins :=
      (public_key.add KAA_RSA_PUBLIC_KEY_LENGTH_MAX).add (-(public_key_length : Int))
    let fd ← store_key fd KAA_RSA_PUBLIC_KEY (sizeof_lit KAA_RSA_PUBLIC_KEY) key_begins
      public_key_length
    let key_begins :=
      (private_key.add KAA_RSA_PRIVATE_KEY_LENGTH_MAX).add (-(private_key_length : Int))
    let fd ← store_key fd KAA_RSA_PRIVATE_KEY (sizeof_lit KAA_RSA_PRIVATE_KEY) key_begins
      private_key_length
    let sha1_base64_len : Nat := 0
    let sha1 : Buffer SHA1_LENGTH := env.sha1_uninit
    let sha1_base64_buffer : Buffer 1024 := Buffer.zero 1024
    let r ← sha1_from_public_key lib w (some keys.public_key.ptr) keys.public_key_length sha1
    let sha1 := r.2.1
    let w := r.2.2
    let r ← sha1_to_base64 lib w (some sha1.ptr) SHA1_LENGTH sha1_base64_buffer 1024
      sha1_base64_len
    let error := r.1
    let sha1_base64_buffer := r.2.1
    let sha1_base64_len := r.2.2.1
    let w := r.2.2.2
    let w := if error ≠ 0 then printf "Error while encoding base64" w else w
    let buffer := sprintf KAA_SHA1_PUB_LEN SHA1_LENGTH
    let fd ← fwrite buffer buffer.length fd
    let buffer := sprintf KAA_SHA1_PUB_BASE64_LEN sha1_base64_len
    let fd ← fwrite buffer buffer.length fd
    let r ← sha1_store fd sha1.ptr SHA1_LENGTH sha1_base64_buffer.ptr sha1_base64_len
    let error := r.1
    let fd := r.2
    let w := if error ≠ 0 then printf "Can't store sha1\n" w else w
    let fd ← fwrite GUARD_ENDIF (sizeof_lit GUARD_ENDIF) fd
    let w : World := { w with file := some fd }
    return (0, w)

/-- The global `keys` at program start: static storage is zero-initialised. -/
def keys_init : endpoint_keys_t :=
  { public_key := Buffer.zero _, private_key := Buffer.zero _,
    public_key_length := 0, private_key_length := 0 }

/-- The result is the exit status and the final state. -/
def main (lib : Mbedtls) (env : Env) (w : World) : UB (Int × World) := do
  let keys := keys_init
  let keys := { keys with public_key_length := KAA_RSA_PUBLIC_KEY_LENGTH_MAX }
  let keys := { keys with private_key_length := KAA_RSA_PRIVATE_KEY_LENGTH_MAX }
  let r := rsa_keys_create lib keys
  let error := r.1
  let keys := r.2
  let w :=
    if error ≠ 0 then
      { w with stdout := w.stdout ++ "Error: can't generate keys (".toList ++ fmt_i error
          ++ ")\n".toList }
    else w
  let r ← kaa_keys_store lib env keys w keys.public_key.ptr keys.public_key_length
    keys.private_key.ptr keys.private_key_length
  let error := r.1
  let w := r.2
  let w := if error ≠ 0 then printf "Error: Can't store the keys\n" w else w
  return (if error ≠ 0 then EXIT_FAILURE else EXIT_SUCCESS, w)

/-! ## A reference instance of the library

SHA-1 as in FIPS 180-1, base64 as `mbedtls_base64_encode` computes it, and DER writers that
place given DER bytes at the end of the destination, as `mbedtls_pk_write_pubkey_der` and
`mbedtls_pk_write_key_der` do. -/

/-- The source bytes replace the front of the array; its size does not change. -/
def Buffer.overlay {n : Nat} (b : Buffer n) (src : List uint8_t) : Buffer n :=
  ⟨(src ++ b.val.drop src.length).take n, by
    have h := b.property
    simp only [List.length_take, List.length_append, List.length_drop]
    omega⟩

def MBEDTLS_ERR_ASN1_BUF_TOO_SMALL : Int := -0x006C
def MBEDTLS_ERR_BASE64_BUFFER_TOO_SMALL : Int := -0x002A

/-- A DER writer for the encoding `der`: the bytes go to the end of the first `size` bytes of
the array and their number is returned, or nothing is written when they do not fit. -/
def der_writer (der : List uint8_t) (cap : Nat) (buf : Buffer cap) (size : Nat) :
    Int × Buffer cap :=
  if der.length ≤ size ∧ size ≤ cap then
    (der.length, buf.overlay (buf.val.take (size - der.length) ++ der))
  else (MBEDTLS_ERR_ASN1_BUF_TOO_SMALL, buf)

def rotl32 (x n : Nat) : Nat := ((x <<< n) ||| (x >>> (32 - n))) % 2 ^ 32

/-- The chaining value of SHA-1. -/
structure sha1_state where
  h0 : Nat
  h1 : Nat
  h2 : Nat
  h3 : Nat
  h4 : Nat

/-- The message followed by the bit `1`, zeros, and its length in bits on eight bytes. -/
def sha1_pad (msg : List Nat) : List Nat :=
  let bits := 8 * msg.length
  msg ++ [0x80] ++ List.replicate ((55 + 64 - msg.length % 64) % 64) 0
    ++ (List.range 8).map (fun i => (bits >>> (8 * (7 - i))) % 256)

/-- The sixteen big-endian words of a 64-byte block. -/
def sha1_words (block : List Nat) : List Nat :=
  (List.range 16).map fun i =>
    block.getD (4 * i) 0 * 2 ^ 24 + block.getD (4 * i + 1) 0 * 2 ^ 16
      + block.getD (4 * i + 2) 0 * 2 ^ 8 + block.getD (4 * i + 3) 0

/-- The message schedule: eighty words. -/
def sha1_schedule (block : List Nat) : List Nat :=
  (List.range 64).foldl (fun w i =>
    let t := i + 16
    w ++ [rotl32 (w.getD (t - 3) 0 ^^^ w.getD (t - 8) 0 ^^^ w.getD (t - 14) 0
      ^^^ w.getD (t - 16) 0) 1]) (sha1_words block)

def sha1_round (w : List Nat) (s : sha1_state) (t : Nat) : sha1_state :=
  let f :=
    if t < 20 then (s.h1 &&& s.h2) ||| ((s.h1 ^^^ 0xFFFFFFFF) &&& s.h3)
    else if t < 40 then s.h1 ^^^ s.h2 ^^^ s.h3
    else if t < 60 then (s.h1 &&& s.h2) ||| (s.h1 &&& s.h3) ||| (s.h2 &&& s.h3)
    else s.h1 ^^^ s.h2 ^^^ s.h3
  let k :=
    if t < 20 then 0x5A827999 else if t < 40 then 0x6ED9EBA1
    else if t < 60 then 0x8F1BBCDC else 0xCA62C1D6
  { h0 := (rotl32 s.h0 5 + f + s.h4 + k + w.getD t 0) % 2 ^ 32, h1 := s.h0,
    h2 := rotl32 s.h1 30, h3 := s.h2, h4 := s.h3 }

def sha1_process (s : sha1_state) (block : List Nat) : sha1_state :=
  let r := (List.range 80).foldl (sha1_round (sha1_schedule block)) s
  { h0 := (s.h0 + r.h0) % 2 ^ 32, h1 := (s.h1 + r.h1) % 2 ^ 32, h2 := (s.h2 + r.h2) % 2 ^ 32,
    h3 := (s.h3 + r.h3) % 2 ^ 32, h4 := (s.h4 + r.h4) % 2 ^ 32 }

/-- The blocks of 64 bytes of a padded message. -/
def sha1_blocks : Nat → List Nat → List (List Nat)
  | 0, _ => []
  | k + 1, l => l.take 64 :: sha1_blocks k (l.drop 64)

/-- The four bytes of a word, most significant first. -/
def be32 (x : Nat) : List uint8_t :=
  [Fin.ofNat (x >>> 24), Fin.ofNat (x >>> 16), Fin.ofNat (x >>> 8), Fin.ofNat x]

def sha1_digest (msg : List uint8_t) : Buffer SHA1_LENGTH :=
  let padded := sha1_pad (msg.map Fin.val)
  let s := (sha1_blocks (padded.length / 64) padded).foldl sha1_process
    { h0 := 0x67452301, h1 := 0xEFCDAB89, h2 := 0x98BADCFE, h3 := 0x10325476,
      h4 := 0xC3D2E1F0 }
  ⟨be32 s.h0 ++ be32 s.h1 ++ be32 s.h2 ++ be32 s.h3 ++ be32 s.h4, rfl⟩

/-- The character of the base64 alphabet with the given index. -/
def base64_enc_map (i : Nat) : uint8_t :=
  Fin.ofNat
    ("ABCDEFGHIJKLMNOPQRSTUVWXYZabcdefghijklmnopqrstuvwxyz0123456789+/".toList.getD i
      'A').toNat

/-- The base64 text of a byte sequence, padded with `=`. -/
def base64_text : List uint8_t → List uint8_t
  | a :: b :: c :: rest =>
    [base64_enc_map (a.val >>> 2), base64_enc_map ((a.val &&& 3) <<< 4 ||| b.val >>> 4),
      base64_enc_map ((b.val &&& 15) <<< 2 ||| c.val >>> 6), base64_enc_map (c.val &&& 0x3F)]
      ++ base64_text rest
  | [a, b] =>
    [base64_enc_map (a.val >>> 2), base64_enc_map ((a.val &&& 3) <<< 4 ||| b.val >>> 4),
      base64_enc_map ((b.val &&& 15) <<< 2), Fin.ofNat '='.toNat]
  | [a] =>
    [base64_enc_map (a.val >>> 2), base64_enc_map ((a.val &&& 3) <<< 4), Fin.ofNat '='.toNat,
      Fin.ofNat '='.toNat]
  | [] => []

/-- The function `mbedtls_base64_encode`: the text and a terminating zero are written when
`dlen` has room for them, and `*olen` is the length of the text; otherwise nothing is written
and `*olen` is the room needed. -/
def mbedtls_base64_encode (cap : Nat) (dst : Buffer cap) (dlen : Nat) (src : List uint8_t) :
    Int × Nat × Buffer cap :=
  if src.length = 0 then (0, 0, dst) else
  let n := 4 * (src.length / 3 + if src.length % 3 ≠ 0 then 1 else 0)
  if dlen < n + 1 then (MBEDTLS_ERR_BASE64_BUFFER_TOO_SMALL, n + 1, dst) else
  (0, n, dst.overlay (base64_text src ++ [0]))

/-- The library for a run in which the three steps of key generation return `seed`, `setup`
and `gen`, and the generated key pair has the DER encodings `pub` and `priv`. -/
def mbedtls_ref (seed setup gen : Int) (pub priv : List uint8_t) : Mbedtls :=
  { ctr_drbg_seed := seed, pk_setup := setup, rsa_gen_key := gen,
    pk_write_pubkey_der := der_writer pub, pk_write_key_der := der_writer priv,
    sha1 := sha1_digest, base64_encode := mbedtls_base64_encode }

/-! ## The header as a reader sees it

The layout of section 6 of the specification, and a parser for it: the parser is what a
consumer of the generated header applies to recover the constants and the arrays. -/

/-- Two upper-case hexadecimal digits of a byte. -/
def hex2 (b : uint8_t) : List Char :=
  [hexDigitUpper (b.val / 16), hexDigitUpper (b.val % 16)]

/-- One element of an array initialiser: `0xHH, `. -/
def byte_literal (b : uint8_t) : List Char :=
  "0x".toList ++ hex2 b ++ ", ".toList

/-- An array definition: the text in front, `{ `, the elements, ` };` and two newlines. -/
def array_text (pfx : List Char) (bytes : List uint8_t) : List Char :=
  pfx ++ "\x7b ".toList ++ bytes.flatMap byte_literal ++ " \x7d;\n\n".toList

/-- The generated header in the order of the output artifact: the guard, the two key lengths,
the two key arrays, the two digest lengths, the two digest arrays, the end of the guard. -/
def header_text (n1 n2 n3 n4 : Nat) (pub priv digest digest_b64 : List uint8_t) : List Char :=
  "#ifndef KAA_RSA_KEYS_H_\n".toList ++ "#define KAA_RSA_KEYS_H_\n\n\n".toList
    ++ ("#define KAA_RSA_PUBLIC_KEY_LENGTH  ".toList ++ fmt_zu n1 ++ "\n".toList)
    ++ ("#define KAA_RSA_PRIVATE_KEY_LENGTH ".toList ++ fmt_zu n2 ++ "\n\n\n".toList)
    ++ array_text "uint8_t KAA_RSA_PUBLIC_KEY[] = ".toList pub
    ++ array_text "uint8_t KAA_RSA_PRIVATE_KEY[] = ".toList priv
    ++ ("#define KAA_SHA1_PUB_LEN ".toList ++ fmt_zu n3 ++ "\n".toList)
    ++ ("#define KAA_SHA1_PUB_BASE64_LEN ".toList ++ fmt_zu n4 ++ "\n\n\n".toList)
    ++ array_text "uint8_t KAA_SHA1_PUB[] = ".toList digest
    ++ array_text "uint8_t KAA_SHA1_PUB_BASE64[] = ".toList digest_b64
    ++ "#endif /* KAA_RSA_KEYS_H */\n".toList

/-- The position of the first occurrence of `pat` in `text`. -/
def index_of (pat : List Char) : List Char → Option Nat
  | [] => if pat = [] then some 0 else none
  | c :: text =>
    if pat.isPrefixOf (c :: text) then some 0 else (index_of pat text).map (· + 1)

/-- The text after the literal `lit`, when the text starts with it. -/
def expect : List Char → List Char → Option (List Char)
  | [], text => some text
  | _ :: _, [] => none
  | c :: lit, t :: text => if c = t then expect lit text else none

/-- The value of a decimal digit. -/
def decVal (c : Char) : Option Nat :=
  if '0'.toNat ≤ c.toNat ∧ c.toNat ≤ '9'.toNat then some (c.toNat - '0'.toNat) else none

/-- The value of an upper-case hexadecimal digit. -/
def hexVal (c : Char) : Option Nat :=
  if '0'.toNat ≤ c.toNat ∧ c.toNat ≤ '9'.toNat then some (c.toNat - '0'.toNat)
  else if 'A'.toNat ≤ c.toNat ∧ c.toNat ≤ 'F'.toNat then some (c.toNat - 'A'.toNat + 10)
  else none

/-- The value of the longest run of decimal digits at the start, given the value so far. -/
def parse_nat_aux : List Char → Nat → Nat × List Char
  | [], acc => (acc, [])
  | c :: text, acc =>
    match decVal c with
    | some d => parse_nat_aux text (10 * acc + d)
    | none => (acc, c :: text)

/-- A decimal number: at least one digit. -/
def parse_nat (text : List Char) : Option (Nat × List Char) :=
  match text with
  | [] => none
  | c :: _ => if (decVal c).isSome then some (parse_nat_aux text 0) else none

/-- One element `0xHH, `. -/
def parse_byte (text : List Char) : Option (uint8_t × List Char) :=
  match expect "0x".toList text with
  | some (h :: l :: text) =>
    match hexVal h, hexVal l, expect ", ".toList text with
    | some a, some b, some text => some (Fin.ofNat (16 * a + b), text)
    | _, _, _ => none
  | _ => none

/-- The longest run of elements at the start. -/
def parse_bytes : Nat → List Char → List uint8_t × List Char
  | 0, text => ([], text)
  | fuel + 1, text =>
    match parse_byte text with
    | some (b, rest) => ((b :: (parse_bytes fuel rest).1), (parse_bytes fuel rest).2)
    | none => ([], text)

/-- An array definition with the given text in front. -/
def parse_array (pfx : List Char) (text : List Char) : Option (List uint8_t × List Char) := do
  let t ← expect pfx text
  let t ← expect "\x7b ".toList t
  let r := parse_bytes t.length t
  let t ← expect " \x7d;\n\n".toList r.2
  return (r.1, t)

/-- A length line: the text in front, a decimal number, the text behind. -/
def parse_define (pfx trailer : List Char) (text : List Char) : Option (Nat × List Char) := do
  let t ← expect pfx text
  let r ← parse_nat t
  let t ← expect trailer r.2
  return (r.1, t)

/-- What a reader finds in the header. -/
structure header where
  public_key_length : Nat
  private_key_length : Nat
  sha1_len : Nat
  sha1_base64_len : Nat
  public_key : List uint8_t
  private_key : List uint8_t
  sha1 : List uint8_t
  sha1_base64 : List uint8_t
deriving DecidableEq, Repr

/-- The two length lines and the two arrays of the keys. -/
def parse_keys (text : List Char) : Option (Nat × Nat × List uint8_t × List uint8_t × List Char) := do
  let n1 ← parse_define "#define KAA_RSA_PUBLIC_KEY_LENGTH  ".toList "\n".toList text
  let n2 ← parse_define "#define KAA_RSA_PRIVATE_KEY_LENGTH ".toList "\n\n\n".toList n1.2
  let a1 ← parse_array "uint8_t KAA_RSA_PUBLIC_KEY[] = ".toList n2.2
  let a2 ← parse_array "uint8_t KAA_RSA_PRIVATE_KEY[] = ".toList a1.2
  return (n1.1, n2.1, a1.1, a2.1, a2.2)

/-- The two length lines and the two arrays of the digest. -/
def parse_sha1 (text : List Char) : Option (Nat × Nat × List uint8_t × List uint8_t × List Char) := do
  let n1 ← parse_define "#define KAA_SHA1_PUB_LEN ".toList "\n".toList text
  let n2 ← parse_define "#define KAA_SHA1_PUB_BASE64_LEN ".toList "\n\n\n".toList n1.2
  let a1 ← parse_array "uint8_t KAA_SHA1_PUB[] = ".toList n2.2
  let a2 ← parse_array "uint8_t KAA_SHA1_PUB_BASE64[] = ".toList a1.2
  return (n1.1, n2.1, a1.1, a2.1, a2.2)

/-- The whole header. -/
def parse_header (text : List Char) : Option header := do
  let t ← expect "#ifndef KAA_RSA_KEYS_H_\n#define KAA_RSA_KEYS_H_\n\n\n".toList text
  let k ← parse_keys t
  let s ← parse_sha1 k.2.2.2.2
  let t ← expect "#endif /* KAA_RSA_KEYS_H */\n".toList s.2.2.2.2
  if t = [] then
    return { public_key_length := k.1, private_key_length := k.2.1, sha1_len := s.1,
             sha1_base64_len := s.2.1, public_key := k.2.2.1, private_key := k.2.2.2.1,
             sha1 := s.2.2.1, sha1_base64 := s.2.2.2.1 }
  else none

/-! ## Summaries of a call of `kaa_keys_store` -/

/-- The contents of the local array `sha1` after the call of `sha1_from_public_key`: the
digest of the first `public_key_length` bytes of the global key buffer, or the initial
contents when that length is zero. -/
def stored_sha1 (lib : Mbedtls) (env : Env) (keys : endpoint_keys_t) : Buffer SHA1_LENGTH :=
  if keys.public_key_length = 0 then env.sha1_uninit
  else lib.sha1 (keys.public_key.val.take keys.public_key_length)

/-- The result of the base64 call made by `kaa_keys_store`: return value, `*olen` and
destination. -/
def stored_base64 (lib : Mbedtls) (env : Env) (keys : endpoint_keys_t) :
    Int × Nat × Buffer 1024 :=
  lib.base64_encode 1024 (Buffer.zero 1024) 1024 (stored_sha1 lib env keys).val

/-- The text `kaa_keys_store` prints on standard output. -/
def stored_stdout (lib : Mbedtls) (env : Env) (keys : endpoint_keys_t) : List Char :=
  (if keys.public_key_length = 0 then "Can't generate sha1\n".toList else [])
    ++ (if (stored_base64 lib env keys).1 ≠ 0 then "Error while encoding base64".toList else [])

/-- What `kaa_keys_store` puts in the header for the key buffers `pk`, `sk` and the lengths
`n`, `m`: the lengths, the ends of the key buffers, the stored digest and the reported number
of bytes of the base64 destination. -/
def stored_header (lib : Mbedtls) (env : Env) (keys : endpoint_keys_t)
    (pk : Buffer KAA_RSA_PUBLIC_KEY_LENGTH_MAX) (sk : Buffer KAA_RSA_PRIVATE_KEY_LENGTH_MAX)
    (n m : Nat) : header :=
  { public_key_length := n, private_key_length := m, sha1_len := SHA1_LENGTH,
    sha1_base64_len := (stored_base64 lib env keys).2.1,
    public_key := pk.val.drop (KAA_RSA_PUBLIC_KEY_LENGTH_MAX - n),
    private_key := sk.val.drop (KAA_RSA_PRIVATE_KEY_LENGTH_MAX - m),
    sha1 := (stored_sha1 lib env keys).val,
    sha1_base64 := (stored_base64 lib env keys).2.2.val.take (stored_base64 lib env keys).2.1 }

/-- A standard padded base64 encoder: for a non-empty source it succeeds and reports four
characters for every group of three bytes, the last group completed by padding, as soon as the
declared size of the destination has room for this text and one more byte. -/
def standard_base64 (lib : Mbedtls) : Prop :=
  ∀ (cap : Nat) (dst : Buffer cap) (dlen : Nat) (src : List uint8_t),
    src ≠ [] → 4 * ((src.length + 2) / 3) < dlen →
      (lib.base64_encode cap dst dlen src).1 = 0
        ∧ (lib.base64_encode cap dst dlen src).2.1 = 4 * ((src.length + 2) / 3)

/-! ## A sample run -/

/-- A short DER encoding standing for a public key: five bytes. -/
def sample_pub : List uint8_t := [0x30, 0x03, 0x02, 0x01, 0x05]

/-- A short DER encoding standing for a private key: eight bytes. -/
def sample_priv : List uint8_t := [0x30, 0x06, 0x02, 0x01, 0x00, 0x02, 0x01, 0x07]

/-- Key generation succeeds and the encodings are the sample ones. -/
def sample_lib : Mbedtls := mbedtls_ref 0 0 0 sample_pub sample_priv

/-- Seeding the random generator fails. -/
def failing_lib : Mbedtls := mbedtls_ref 1 0 0 sample_pub sample_priv

/-- The output file opens. -/
def sample_env : Env := { fopen_ok := true, sha1_uninit := Buffer.zero _ }

/-- The output file does not open. -/
def closed_env : Env := { fopen_ok := false, sha1_uninit := Buffer.zero _ }

/-- No output file yet, nothing printed. -/
def sample_world : World := { file := none, stdout := [] }

/-- The global `keys` when `main` calls `rsa_keys_create`. -/
def keys_at_start : endpoint_keys_t :=
  { keys_init with public_key_length := KAA_RSA_PUBLIC_KEY_LENGTH_MAX,
                   private_key_length := KAA_RSA_PRIVATE_KEY_LENGTH_MAX }

/-- Each DER writer, when it succeeds, returns a length no greater than the size it was
given. -/
def writers_bounded (lib : Mbedtls) : Prop :=
  ∀ (cap : Nat) (buf : Buffer cap) (size : Nat),
    (0 ≤ (lib.pk_write_pubkey_der cap buf size).1 →
        (lib.pk_write_pubkey_der cap buf size).1 ≤ (size : Int))
      ∧ (0 ≤ (lib.pk_write_key_der cap buf size).1 →
        (lib.pk_write_key_der cap buf size).1 ≤ (size : Int))

/-- The state in which `main` calls `kaa_keys_store`: a failure of `rsa_keys_create` has been
reported on standard output. -/
def world_after_keygen (lib : Mbedtls) (w : World) : World :=
  if (rsa_keys_create lib keys_at_start).1 ≠ 0 then
    { w with stdout := w.stdout ++ "Error: can't generate keys (".toList
        ++ fmt_i (rsa_keys_create lib keys_at_start).1 ++ ")\n".toList }
  else w

/-- The global `keys` of the sample run when `main` calls `kaa_keys_store`. -/
def sample_keys : endpoint_keys_t := (rsa_keys_create sample_lib keys_at_start).2

@[simp] theorem UB.bind_some {α β : Type} (a : α) (f : α → UB β) :
    @Bind.bind UB _ α β (some a) f = f a := rfl

@[simp] theorem UB.bind_none {α β : Type} (f : α → UB β) :
    @Bind.bind UB _ α β none f = none := rfl

@[simp] theorem UB.pure_eq {α : Type} (a : α) : @Pure.pure UB _ α a = some a := rfl

@[simp] theorem UB.bind_def_some {α β : Type} (a : α) (f : α → UB β) :
    UB.bind (some a) f = f a := rfl

@[simp] theorem sizeof_lit_eq (s : List Char) : sizeof_lit s = s.length := by
  simp [sizeof_lit]

theorem fwrite_all (s fd : List Char) : fwrite s s.length fd = some (fd ++ s) := by
  simp [fwrite]

set_option maxRecDepth 100000 in
theorem fmt_02X_eq : ∀ b : uint8_t, fmt_02X b.val = hex2 b := by decide

theorem sprintf_byte (b : uint8_t) : sprintf "0x%02X, ".toList b.val = byte_literal b := by
  show "0x".toList ++ (fmt_02X b.val ++ ", ".toList) = byte_literal b
  rw [fmt_02X_eq]
  rfl

theorem Ptr.read_eq (p : Ptr) (i : Nat) (h0 : 0 ≤ p.off) :
    p.read i = p.mem[p.off.toNat + i]? := by
  have h : 0 ≤ p.off + (i : Int) := by omega
  have e : (p.off + (i : Int)).toNat = p.off.toNat + i := by omega
  simp [Ptr.read, h, e]

theorem store_key_loop_eq (p : Ptr) (h0 : 0 ≤ p.off) :
    ∀ (k i : Nat) (fd : List Char), p.off.toNat + i + k ≤ p.mem.length →
      store_key_loop p k i fd
        = some (fd ++ ((p.mem.drop (p.off.toNat + i)).take k).flatMap byte_literal) := by
  intro k
  induction k with
  | zero => intro i fd _; simp [store_key_loop]
  | succ k ih =>
    intro i fd h
    have hlt : p.off.toNat + i < p.mem.length := by omega
    rw [store_key_loop, Ptr.read_eq p i h0, List.getElem?_eq_getElem hlt]
    simp only [sprintf_byte, fwrite_all]
    rw [ih (i + 1) _ (by omega), List.drop_eq_getElem_cons hlt]
    simp [List.append_assoc, Nat.add_assoc]

theorem store_key_eq (fd pfx : List Char) (prefix_size : Nat) (p : Ptr) (n : Nat)
    (hp : prefix_size ≤ pfx.length) (h0 : 0 ≤ p.off) (h : p.off.toNat + n ≤ p.mem.length) :
    store_key fd pfx prefix_size p n
      = some (fd ++ array_text (pfx.take prefix_size) ((p.mem.drop p.off.toNat).take n)) := by
  simp only [store_key, fwrite, hp, if_true, UB.pure_eq, UB.bind_some, sizeof_lit_eq,
    Nat.le_refl, List.take_length]
  rw [store_key_loop_eq p h0 n 0 _ (by omega)]
  simp [array_text, KEY_STARTS, KEY_ENDS, List.append_assoc]

theorem Ptr.bytes_from_eq (p : Ptr) (h0 : 0 ≤ p.off) :
    ∀ k i : Nat, p.off.toNat + i + k ≤ p.mem.length →
      p.bytes_from k i = some ((p.mem.drop (p.off.toNat + i)).take k) := by
  intro k
  induction k with
  | zero => intro i _; simp [Ptr.bytes_from]
  | succ k ih =>
    intro i h
    have hlt : p.off.toNat + i < p.mem.length := by omega
    rw [Ptr.bytes_from, Ptr.read_eq p i h0, List.getElem?_eq_getElem hlt]
    simp only []
    rw [ih (i + 1) (by omega), List.drop_eq_getElem_cons hlt]
    simp [Nat.add_assoc]

theorem Ptr.bytes_eq (p : Ptr) (h0 : 0 ≤ p.off) (n : Nat)
    (h : p.off.toNat + n ≤ p.mem.length) :
    p.bytes n = some ((p.mem.drop p.off.toNat).take n) := by
  simpa [Ptr.bytes] using Ptr.bytes_from_eq p h0 n 0 (by omega)

theorem size_t_of_int_of_size_t (n : Nat) (h : n < 2 ^ 31) :
    size_t_of_int (int_of_size_t n) = n := by
  have h1 : n % 2 ^ 32 = n := Nat.mod_eq_of_lt (by omega)
  simp only [int_of_size_t, size_t_of_int, h1, h, if_true]
  omega

@[simp] theorem Buffer.ptr_mem {n : Nat} (b : Buffer n) : b.ptr.mem = b.val := rfl
@[simp] theorem Buffer.ptr_off {n : Nat} (b : Buffer n) : b.ptr.off = 0 := rfl

theorem sha1_from_public_key_keys (lib : Mbedtls) (env : Env) (keys : endpoint_keys_t)
    (w : World) (hk : keys.public_key_length ≤ KAA_RSA_PUBLIC_KEY_LENGTH_MAX) :
    sha1_from_public_key lib w (some keys.public_key.ptr) keys.public_key_length
        env.sha1_uninit
      = some (if keys.public_key_length = 0 then -1 else 0, stored_sha1 lib env keys,
          if keys.public_key_length = 0 then printf "Can't generate sha1\n" w else w) := by
  unfold sha1_from_public_key stored_sha1
  by_cases h : keys.public_key_length = 0
  · simp [h]
  · have hlt : keys.public_key_length < 2 ^ 31 := by
      simp only [KAA_RSA_PUBLIC_KEY_LENGTH_MAX] at hk; omega
    have hb := Ptr.bytes_eq keys.public_key.ptr (by simp) keys.public_key_length
      (by simpa [keys.public_key.property] using hk)
    simp only [h, if_false, size_t_of_int_of_size_t _ hlt, hb]
    simp

theorem sha1_to_base64_sha1 (lib : Mbedtls) (w : World) (sha1 : Buffer SHA1_LENGTH)
    {cap : Nat} (buf : Buffer cap) (dlen olen : Nat) :
    sha1_to_base64 lib w (some sha1.ptr) SHA1_LENGTH buf dlen olen
      = some ((lib.base64_encode cap buf dlen sha1.val).1,
          (lib.base64_encode cap buf dlen sha1.val).2.2,
          (lib.base64_encode cap buf dlen sha1.val).2.1, w) := by
  have hb := Ptr.bytes_eq sha1.ptr (by simp) SHA1_LENGTH (by simp [sha1.property])
  have ht : List.take SHA1_LENGTH sha1.val = sha1.val :=
    List.take_of_length_le (by simp [sha1.property])
  simp only [Buffer.ptr_mem, Buffer.ptr_off, Int.toNat_zero, List.drop_zero, ht] at hb
  have h20 : SHA1_LENGTH ≠ 0 := by decide
  simp only [sha1_to_base64, hb, h20, if_false, UB.bind_some, UB.pure_eq]

theorem store_key_tail (fd pfx : List Char) {cap : Nat} (b : Buffer cap) (n : Nat)
    (h : n ≤ cap) :
    store_key fd pfx (sizeof_lit pfx) ((b.ptr.add cap).add (-(n : Int))) n
      = some (fd ++ array_text pfx (b.val.drop (cap - n))) := by
  have e : (b.ptr.add cap).add (-(n : Int)) = ⟨b.val, ((cap - n : Nat) : Int)⟩ := by
    simp only [Ptr.add, Buffer.ptr, Ptr.mk.injEq, true_and]
    omega
  have hl := b.property
  rw [e, store_key_eq fd pfx (sizeof_lit pfx) _ n (by simp) (by simp) (by simp; omega)]
  have ht : List.take n (List.drop (cap - n) b.val) = List.drop (cap - n) b.val :=
    List.take_of_length_le (by simp; omega)
  simp [ht]

theorem store_key_front (fd pfx : List Char) {cap : Nat} (b : Buffer cap) (n : Nat)
    (h : n ≤ cap) :
    store_key fd pfx (sizeof_lit pfx) b.ptr n = some (fd ++ array_text pfx (b.val.take n)) := by
  have hl := b.property
  rw [store_key_eq fd pfx (sizeof_lit pfx) _ n (by simp) (by simp) (by simp; omega)]
  simp

theorem sprintf_PUBLIC_KEY_LEN (n : Nat) :
    sprintf PUBLIC_KEY_LEN n
      = "#define KAA_RSA_PUBLIC_KEY_LENGTH  ".toList ++ fmt_zu n ++ "\n".toList := rfl

theorem sprintf_PRIVATE_KEY_LEN (n : Nat) :
    sprintf PRIVATE_KEY_LEN n
      = "#define KAA_RSA_PRIVATE_KEY_LENGTH ".toList ++ fmt_zu n ++ "\n\n\n".toList := rfl

theorem sprintf_KAA_SHA1_PUB_LEN (n : Nat) :
    sprintf KAA_SHA1_PUB_LEN n
      = "#define KAA_SHA1_PUB_LEN ".toList ++ fmt_zu n ++ "\n".toList := rfl

theorem sprintf_KAA_SHA1_PUB_BASE64_LEN (n : Nat) :
    sprintf KAA_SHA1_PUB_BASE64_LEN n
      = "#define KAA_SHA1_PUB_BASE64_LEN ".toList ++ fmt_zu n ++ "\n\n\n".toList := rfl

/-- The outcome of `kaa_keys_store` when the file opens and the lengths fit the arrays. -/
theorem kaa_keys_store_eq (lib : Mbedtls) (env : Env) (keys : endpoint_keys_t) (w : World)
    (pk : Buffer KAA_RSA_PUBLIC_KEY_LENGTH_MAX) (sk : Buffer KAA_RSA_PRIVATE_KEY_LENGTH_MAX)
    (n m : Nat) (ho : env.fopen_ok = true) (hn : n ≤ KAA_RSA_PUBLIC_KEY_LENGTH_MAX)
    (hm : m ≤ KAA_RSA_PRIVATE_KEY_LENGTH_MAX)
    (hk : keys.public_key_length ≤ KAA_RSA_PUBLIC_KEY_LENGTH_MAX)
    (hb : (stored_base64 lib env keys).2.1 ≤ 1024) :
    kaa_keys_store lib env keys w pk.ptr n sk.ptr m
      = some (0,
          { file := some (header_text n m SHA1_LENGTH (stored_base64 lib env keys).2.1
              (pk.val.drop (KAA_RSA_PUBLIC_KEY_LENGTH_MAX - n))
              (sk.val.drop (KAA_RSA_PRIVATE_KEY_LENGTH_MAX - m))
              (stored_sha1 lib env keys).val
              ((stored_base64 lib env keys).2.2.val.take (stored_base64 lib env keys).2.1)),
            stdout := w.stdout ++ stored_stdout lib env keys }) := by
  unfold kaa_keys_store
  simp only [ho, not_true_eq_false, if_false, fwrite_all, sizeof_lit_eq, UB.bind_some]
  rw [← sizeof_lit_eq KAA_RSA_PUBLIC_KEY, ← sizeof_lit_eq KAA_RSA_PRIVATE_KEY,
    store_key_tail _ _ pk n hn]
  simp only [UB.bind_some]
  rw [store_key_tail _ _ sk m hm]
  simp only [UB.bind_some, sha1_from_public_key_keys lib env keys _ hk, sha1_to_base64_sha1]
  simp only [sha1_store]
  rw [store_key_front _ _ (stored_sha1 lib env keys) SHA1_LENGTH (Nat.le_refl _)]
  simp only [UB.bind_some]
  have hb' : (lib.base64_encode 1024 (Buffer.zero 1024) 1024
      (stored_sha1 lib env keys).val).2.1 ≤ 1024 := hb
  rw [store_key_front _ _ _ _ hb']
  have ht : List.take SHA1_LENGTH (stored_sha1 lib env keys).val
      = (stored_sha1 lib env keys).val :=
    List.take_of_length_le (by simp [(stored_sha1 lib env keys).property])
  simp only [UB.bind_some, UB.pure_eq, ht, sprintf_PUBLIC_KEY_LEN, sprintf_PRIVATE_KEY_LEN,
    sprintf_KAA_SHA1_PUB_LEN, sprintf_KAA_SHA1_PUB_BASE64_LEN]
  have hf : ∀ x y : List Char, ∀ u v : List Char, x = y → u = v →
      (some ((0 : Int), ({ file := some x, stdout := u } : World)) : UB (Int × World))
        = some (0, { file := some y, stdout := v }) := by
    intro x y u v h1 h2; rw [h1, h2]
  apply hf
  · simp only [header_text, stored_base64, GUARD_IFNDEF, GUARD_DEF, KAA_RSA_PUBLIC_KEY,
      KAA_RSA_PRIVATE_KEY, KAA_SHA1_PUB, KAA_SHA1_PUB_BASE64, GUARD_ENDIF, List.nil_append,
      List.append_assoc]
  · by_cases h1 : keys.public_key_length = 0 <;>
      by_cases h2 : (stored_base64 lib env keys).1 = 0 <;>
      simp [stored_stdout, printf, h1, h2, stored_base64] <;>
      simp [stored_base64] at h2 <;> simp [h2]

/-! ## Reading the header back -/

theorem expect_append (lit rest : List Char) : expect lit (lit ++ rest) = some rest := by
  induction lit with
  | nil => cases rest <;> rfl
  | cons c lit ih => simp [expect, ih]

theorem decVal_hexDigitUpper (d : Nat) (h : d < 10) : decVal (hexDigitUpper d) = some d := by
  interval_cases d <;> rfl

theorem hexVal_hexDigitUpper (d : Nat) (h : d < 16) : hexVal (hexDigitUpper d) = some d := by
  interval_cases d <;> rfl

theorem natDigits_acc (base : Nat) :
    ∀ (fuel n : Nat) (acc : List Nat),
      natDigits base fuel n acc = natDigits base fuel n [] ++ acc := by
  intro fuel
  induction fuel with
  | zero => intro n acc; simp [natDigits]
  | succ fuel ih =>
    intro n acc
    simp only [natDigits]
    split
    · simp
    · rw [ih (n / base) (n % base :: acc), ih (n / base) [n % base]]
      simp

/-- With enough fuel the decimal digits are digits, there is at least one, and their value
is the number. -/
theorem natDigits_dec :
    ∀ (fuel n : Nat), n < fuel →
      (∀ d ∈ natDigits 10 fuel n [], d < 10) ∧ natDigits 10 fuel n [] ≠ [] ∧
        (natDigits 10 fuel n []).foldl (fun a d => 10 * a + d) 0 = n := by
  intro fuel
  induction fuel with
  | zero => intro n h; omega
  | succ fuel ih =>
    intro n h
    simp only [natDigits]
    split
    · rename_i hlt
      simp [hlt]
    · rename_i hge
      have hq : n / 10 < fuel := by omega
      obtain ⟨h1, _, h3⟩ := ih (n / 10) hq
      rw [natDigits_acc]
      refine ⟨?_, by simp, ?_⟩
      · intro d hd
        rcases List.mem_append.mp hd with hd | hd
        · exact h1 d hd
        · have : d = n % 10 := by simpa using hd
          omega
      · rw [List.foldl_append, h3]
        simp only [List.foldl_cons, List.foldl_nil]
        omega

theorem parse_nat_aux_digits (rest : List Char)
    (hrest : ∀ c t, rest = c :: t → decVal c = none) :
    ∀ (ds : List Nat) (acc : Nat), (∀ d ∈ ds, d < 10) →
      parse_nat_aux (ds.map hexDigitUpper ++ rest) acc
        = (ds.foldl (fun a d => 10 * a + d) acc, rest) := by
  intro ds
  induction ds with
  | nil =>
    intro acc _
    cases rest with
    | nil => rfl
    | cons c t => simp [parse_nat_aux, hrest c t rfl]
  | cons d ds ih =>
    intro acc h
    have hd : d < 10 := h d (List.mem_cons_self _ _)
    simp only [List.map_cons, List.cons_append, parse_nat_aux, decVal_hexDigitUpper d hd,
      List.foldl_cons]
    exact ih _ (fun x hx => h x (List.mem_cons_of_mem _ hx))

/-- A number printed with `%zu` and followed by something that is not a digit reads back. -/
theorem parse_nat_fmt_zu (n : Nat) (rest : List Char)
    (hrest : ∀ c t, rest = c :: t → decVal c = none) :
    parse_nat (fmt_zu n ++ rest) = some (n, rest) := by
  obtain ⟨h1, h2, h3⟩ := natDigits_dec (n + 1) n (Nat.lt_succ_self n)
  have haux := parse_nat_aux_digits rest hrest (natDigits 10 (n + 1) n []) 0 h1
  rw [h3] at haux
  unfold fmt_zu
  cases hds : natDigits 10 (n + 1) n [] with
  | nil => exact absurd hds h2
  | cons d ds =>
    rw [hds] at haux h1
    have hd : d < 10 := h1 d (List.mem_cons_self _ _)
    simp only [List.map_cons, List.cons_append] at haux ⊢
    simp only [parse_nat, decVal_hexDigitUpper d hd, Option.isSome_some, if_true]
    rw [haux]

theorem parse_byte_literal (b : uint8_t) (rest : List Char) :
    parse_byte (byte_literal b ++ rest) = some (b, rest) := by
  have h1 : b.val / 16 < 16 := by omega
  have h2 : b.val % 16 < 16 := by omega
  have hb : (Fin.ofNat (16 * (b.val / 16) + b.val % 16) : uint8_t) = b := by
    apply Fin.ext
    show (16 * (b.val / 16) + b.val % 16) % 256 = b.val
    omega
  simp [parse_byte, byte_literal, hex2, expect, hexVal_hexDigitUpper _ h1,
    hexVal_hexDigitUpper _ h2, hb]

theorem parse_bytes_literals (rest : List Char) (hrest : parse_byte rest = none) :
    ∀ (bytes : List uint8_t) (fuel : Nat), bytes.length ≤ fuel →
      parse_bytes fuel (bytes.flatMap byte_literal ++ rest) = (bytes, rest) := by
  intro bytes
  induction bytes with
  | nil =>
    intro fuel _
    cases fuel with
    | zero => rfl
    | succ fuel => simp [parse_bytes, hrest]
  | cons b bytes ih =>
    intro fuel h
    cases fuel with
    | zero => simp at h
    | succ fuel =>
      have h' : bytes.length ≤ fuel := by simpa using h
      simp only [List.flatMap_cons, List.append_assoc, parse_bytes, parse_byte_literal,
        ih fuel h']

theorem length_byte_literal (b : uint8_t) : (byte_literal b).length = 6 := rfl

theorem length_flatMap_byte_literal (bytes : List uint8_t) :
    (bytes.flatMap byte_literal).length = 6 * bytes.length := by
  induction bytes with
  | nil => rfl
  | cons b bytes ih =>
    simp only [List.flatMap_cons, List.length_append, length_byte_literal, ih,
      List.length_cons]
    omega

theorem parse_array_text (pfx : List Char) (bytes : List uint8_t) (rest : List Char) :
    parse_array pfx (array_text pfx bytes ++ rest) = some (bytes, rest) := by
  have hr : parse_byte (" \x7d;\n\n".toList ++ rest) = none := rfl
  have hp := parse_bytes_literals (" \x7d;\n\n".toList ++ rest) hr bytes
    (bytes.flatMap byte_literal ++ (" \x7d;\n\n".toList ++ rest)).length
    (by simp only [List.length_append, length_flatMap_byte_literal]; omega)
  simp only [parse_array, array_text, List.append_assoc, expect_append, Option.bind_eq_bind,
    Option.some_bind, hp, Option.pure_def]

theorem parse_define_text (pfx trailer : List Char) (n : Nat) (rest : List Char)
    (ht : ∀ c t, trailer ++ rest = c :: t → decVal c = none) :
    parse_define pfx trailer (pfx ++ fmt_zu n ++ trailer ++ rest) = some (n, rest) := by
  simp only [parse_define, List.append_assoc, expect_append, Option.bind_eq_bind,
    Option.some_bind, Option.pure_def]
  rw [parse_nat_fmt_zu n (trailer ++ rest) ht]
  simp only [Option.some_bind, expect_append]

theorem parse_define_line (pfx : List Char) (n : Nat) (rest : List Char) :
    parse_define pfx "\n".toList (pfx ++ (fmt_zu n ++ ("\n".toList ++ rest))) = some (n, rest) := by
  have h := parse_define_text pfx "\n".toList n rest
    (by intro c t h; have hc : c = '\n' := by
          simp only [String.toList, List.cons_append, List.cons.injEq] at h; exact h.1.symm
        rw [hc]; rfl)
  simpa only [List.append_assoc] using h

theorem parse_define_lines (pfx : List Char) (n : Nat) (rest : List Char) :
    parse_define pfx "\n\n\n".toList (pfx ++ (fmt_zu n ++ ("\n\n\n".toList ++ rest)))
      = some (n, rest) := by
  have h := parse_define_text pfx "\n\n\n".toList n rest
    (by intro c t h; have hc : c = '\n' := by
          simp only [String.toList, List.cons_append, List.cons.injEq] at h; exact h.1.symm
        rw [hc]; rfl)
  simpa only [List.append_assoc] using h

/-- The parser recovers the constants and the arrays from the layout of the header. -/
theorem parse_header_text (n1 n2 n3 n4 : Nat) (pub priv digest digest_b64 : List uint8_t) :
    parse_header (header_text n1 n2 n3 n4 pub priv digest digest_b64)
      = some { public_key_length := n1, private_key_length := n2, sha1_len := n3,
               sha1_base64_len := n4, public_key := pub, private_key := priv,
               sha1 := digest, sha1_base64 := digest_b64 } := by
  have hg : "#ifndef KAA_RSA_KEYS_H_\n#define KAA_RSA_KEYS_H_\n\n\n".toList
      = "#ifndef KAA_RSA_KEYS_H_\n".toList ++ "#define KAA_RSA_KEYS_H_\n\n\n".toList := rfl
  have he := expect_append "#endif /* KAA_RSA_KEYS_H */\n".toList []
  rw [List.append_nil] at he
  have hg2 : ∀ a b rest : List Char, expect (a ++ b) (a ++ (b ++ rest)) = some rest := by
    intro a b rest; rw [← List.append_assoc, expect_append]
  simp only [parse_header, header_text, hg, parse_keys, parse_sha1, List.append_assoc,
    expect_append, hg2, parse_define_line, parse_define_lines, parse_array_text, he,
    Option.bind_eq_bind, Option.some_bind, Option.pure_def, if_true]

/-! ## The reference library -/

theorem mbedtls_base64_encode_standard (cap : Nat) (dst : Buffer cap) (dlen : Nat)
    (src : List uint8_t) (hs : src ≠ []) (hd : 4 * ((src.length + 2) / 3) < dlen) :
    (mbedtls_base64_encode cap dst dlen src).1 = 0
      ∧ (mbedtls_base64_encode cap dst dlen src).2.1 = 4 * ((src.length + 2) / 3) := by
  have hl : src.length ≠ 0 := by
    intro h; exact hs (List.length_eq_zero.mp h)
  have hn : 4 * (src.length / 3 + if src.length % 3 ≠ 0 then 1 else 0)
      = 4 * ((src.length + 2) / 3) := by
    split <;> omega
  have hlt : ¬ dlen < 4 * ((src.length + 2) / 3) + 1 := by omega
  simp only [mbedtls_base64_encode, hl, if_false, hn, hlt]
  exact ⟨trivial, trivial⟩

theorem mbedtls_ref_standard (seed setup gen : Int) (pub priv : List uint8_t) :
    standard_base64 (mbedtls_ref seed setup gen pub priv) := by
  intro cap dst dlen src hs hd
  exact mbedtls_base64_encode_standard cap dst dlen src hs hd

/-- A standard encoder encodes the stored digest into 28 characters without error. -/
theorem stored_base64_standard (lib : Mbedtls) (env : Env) (keys : endpoint_keys_t)
    (hstd : standard_base64 lib) :
    (stored_base64 lib env keys).1 = 0 ∧ (stored_base64 lib env keys).2.1 = 28 := by
  have hl : (stored_sha1 lib env keys).val.length = 20 := (stored_sha1 lib env keys).property
  have hne : (stored_sha1 lib env keys).val ≠ [] := by
    intro h; rw [h] at hl; simp at hl
  have h := hstd 1024 (Buffer.zero 1024) 1024 (stored_sha1 lib env keys).val hne
    (by rw [hl]; decide)
  rw [hl] at h
  exact h

theorem sample_base64_fits :
    (stored_base64 sample_lib sample_env sample_keys).2.1 ≤ 1024 := by
  rw [(stored_base64_standard sample_lib sample_env sample_keys
    (mbedtls_ref_standard 0 0 0 sample_pub sample_priv)).2]
  decide

/-! ## The generated header -/

/-- The header written by `kaa_keys_store` reads back as `stored_header`. -/
theorem kaa_keys_store_parse (lib : Mbedtls) (env : Env) (keys : endpoint_keys_t)
    (w : World) (pk : Buffer KAA_RSA_PUBLIC_KEY_LENGTH_MAX)
    (sk : Buffer KAA_RSA_PRIVATE_KEY_LENGTH_MAX) (n m : Nat) (ho : env.fopen_ok = true)
    (hn : n ≤ KAA_RSA_PUBLIC_KEY_LENGTH_MAX) (hm : m ≤ KAA_RSA_PRIVATE_KEY_LENGTH_MAX)
    (hk : keys.public_key_length ≤ KAA_RSA_PUBLIC_KEY_LENGTH_MAX)
    (hb : (stored_base64 lib env keys).2.1 ≤ 1024) :
    ∃ w' : World,
      kaa_keys_store lib env keys w pk.ptr n sk.ptr m = some (0, w')
        ∧ w'.file.bind parse_header = some (stored_header lib env keys pk sk n m) := by
  refine ⟨_, kaa_keys_store_eq lib env keys w pk sk n m ho hn hm hk hb, ?_⟩
  simp only [Option.some_bind, parse_header_text, stored_header]

/-- C1: when the file opens, the lengths passed and the length in the global `keys` (from
which the digest is taken) fit the arrays, and the base64 length reported fits its destination,
a reader of the header written by `kaa_keys_store` finds each of the four length constants
equal to the number of elements of the corresponding array. -/
theorem length_constants_match_arrays (lib : Mbedtls) (env : Env) (keys : endpoint_keys_t)
    (w : World) (pk : Buffer KAA_RSA_PUBLIC_KEY_LENGTH_MAX)
    (sk : Buffer KAA_RSA_PRIVATE_KEY_LENGTH_MAX) (n m : Nat) (ho : env.fopen_ok = true)
    (hn : n ≤ KAA_RSA_PUBLIC_KEY_LENGTH_MAX) (hm : m ≤ KAA_RSA_PRIVATE_KEY_LENGTH_MAX)
    (hk : keys.public_key_length ≤ KAA_RSA_PUBLIC_KEY_LENGTH_MAX)
    (hb : (stored_base64 lib env keys).2.1 ≤ 1024) :
    ∃ (w' : World) (h : header),
      kaa_keys_store lib env keys w pk.ptr n sk.ptr m = some (0, w')
        ∧ w'.file.bind parse_header = some h
        ∧ h.public_key_length = h.public_key.length
        ∧ h.private_key_length = h.private_key.length
        ∧ h.sha1_len = h.sha1.length
        ∧ h.sha1_base64_len = h.sha1_base64.length := by
  obtain ⟨w', h1, h2⟩ := kaa_keys_store_parse lib env keys w pk sk n m ho hn hm hk hb
  refine ⟨w', _, h1, h2, ?_, ?_, ?_, ?_⟩
  · simp only [stored_header, List.length_drop, pk.property]; omega
  · simp only [stored_header, List.length_drop, sk.property]; omega
  · exact (stored_sha1 lib env keys).property.symm
  · simp only [stored_header, List.length_take, (stored_base64 lib env keys).2.2.property]
    omega

theorem length_constants_match_arrays_witness :
    sample_env.fopen_ok = true ∧ 5 ≤ KAA_RSA_PUBLIC_KEY_LENGTH_MAX
      ∧ 8 ≤ KAA_RSA_PRIVATE_KEY_LENGTH_MAX
      ∧ sample_keys.public_key_length ≤ KAA_RSA_PUBLIC_KEY_LENGTH_MAX
      ∧ (stored_base64 sample_lib sample_env sample_keys).2.1 ≤ 1024
      ∧ ∃ (w' : World) (h : header),
          kaa_keys_store sample_lib sample_env sample_keys sample_world
              sample_keys.public_key.ptr 5 sample_keys.private_key.ptr 8 = some (0, w')
            ∧ w'.file.bind parse_header = some h
            ∧ h.public_key_length = h.public_key.length
            ∧ h.private_key_length = h.private_key.length
            ∧ h.sha1_len = h.sha1.length
            ∧ h.sha1_base64_len = h.sha1_base64.length :=
  ⟨rfl, by decide, by decide, by decide, sample_base64_fits,
    length_constants_match_arrays sample_lib sample_env sample_keys sample_world
      sample_keys.public_key sample_keys.private_key 5 8 rfl (by decide) (by decide)
      (by decide) sample_base64_fits⟩

/-- C2: when the file opens and the lengths fit the arrays, reading back the two key arrays of
the header written by `kaa_keys_store` gives the last `n` bytes of the 294-byte public key
buffer and the last `m` bytes of the 1200-byte private key buffer: the buffer is the unused
front followed by exactly the array read back. -/
theorem key_arrays_read_back_tail (lib : Mbedtls) (env : Env) (keys : endpoint_keys_t)
    (w : World) (pk : Buffer KAA_RSA_PUBLIC_KEY_LENGTH_MAX)
    (sk : Buffer KAA_RSA_PRIVATE_KEY_LENGTH_MAX) (n m : Nat) (ho : env.fopen_ok = true)
    (hn : n ≤ KAA_RSA_PUBLIC_KEY_LENGTH_MAX) (hm : m ≤ KAA_RSA_PRIVATE_KEY_LENGTH_MAX)
    (hk : keys.public_key_length ≤ KAA_RSA_PUBLIC_KEY_LENGTH_MAX)
    (hb : (stored_base64 lib env keys).2.1 ≤ 1024) :
    ∃ (w' : World) (h : header),
      kaa_keys_store lib env keys w pk.ptr n sk.ptr m = some (0, w')
        ∧ w'.file.bind parse_header = some h
        ∧ h.public_key = pk.val.drop (294 - n) ∧ h.public_key.length = n
        ∧ pk.val = pk.val.take (294 - n) ++ h.public_key
        ∧ h.private_key = sk.val.drop (1200 - m) ∧ h.private_key.length = m
        ∧ sk.val = sk.val.take (1200 - m) ++ h.private_key := by
  obtain ⟨w', h1, h2⟩ := kaa_keys_store_parse lib env keys w pk sk n m ho hn hm hk hb
  refine ⟨w', _, h1, h2, rfl, ?_, ?_, rfl, ?_, ?_⟩
  · simp only [KAA_RSA_PUBLIC_KEY_LENGTH_MAX] at hn
    simp only [stored_header, KAA_RSA_PUBLIC_KEY_LENGTH_MAX, List.length_drop, pk.property]
    omega
  · exact (List.take_append_drop _ _).symm
  · simp only [KAA_RSA_PRIVATE_KEY_LENGTH_MAX] at hm
    simp only [stored_header, KAA_RSA_PRIVATE_KEY_LENGTH_MAX, List.length_drop, sk.property]
    omega
  · exact (List.take_append_drop _ _).symm

theorem key_arrays_read_back_tail_witness :
    sample_env.fopen_ok = true ∧ 5 ≤ KAA_RSA_PUBLIC_KEY_LENGTH_MAX
      ∧ 8 ≤ KAA_RSA_PRIVATE_KEY_LENGTH_MAX
      ∧ sample_keys.public_key_length ≤ KAA_RSA_PUBLIC_KEY_LENGTH_MAX
      ∧ (stored_base64 sample_lib sample_env sample_keys).2.1 ≤ 1024
      ∧ ∃ (w' : World) (h : header),
          kaa_keys_store sample_lib sample_env sample_keys sample_world
              sample_keys.public_key.ptr 5 sample_keys.private_key.ptr 8 = some (0, w')
            ∧ w'.file.bind parse_header = some h
            ∧ h.public_key = sample_keys.public_key.val.drop (294 - 5)
            ∧ h.public_key.length = 5
            ∧ sample_keys.public_key.val
                = sample_keys.public_key.val.take (294 - 5) ++ h.public_key
            ∧ h.private_key = sample_keys.private_key.val.drop (1200 - 8)
            ∧ h.private_key.length = 8
            ∧ sample_keys.private_key.val
                = sample_keys.private_key.val.take (1200 - 8) ++ h.private_key :=
  ⟨rfl, by decide, by decide, by decide, sample_base64_fits,
    key_arrays_read_back_tail sample_lib sample_env sample_keys sample_world
      sample_keys.public_key sample_keys.private_key 5 8 rfl (by decide) (by decide)
      (by decide) sample_base64_fits⟩

/-- C7, as amended: when the file opens and the lengths fit the arrays, `kaa_keys_store`
returns 0 and the file holds, in this order, the guard, the two key length lines, the public
and the private key array, the two digest length lines, the digest and the base64 array, and
the end of the guard. -/
theorem kaa_keys_store_layout (lib : Mbedtls) (env : Env) (keys : endpoint_keys_t)
    (w : World) (pk : Buffer KAA_RSA_PUBLIC_KEY_LENGTH_MAX)
    (sk : Buffer KAA_RSA_PRIVATE_KEY_LENGTH_MAX) (n m : Nat) (ho : env.fopen_ok = true)
    (hn : n ≤ KAA_RSA_PUBLIC_KEY_LENGTH_MAX) (hm : m ≤ KAA_RSA_PRIVATE_KEY_LENGTH_MAX)
    (hk : keys.public_key_length ≤ KAA_RSA_PUBLIC_KEY_LENGTH_MAX)
    (hb : (stored_base64 lib env keys).2.1 ≤ 1024) :
    ∃ w' : World,
      kaa_keys_store lib env keys w pk.ptr n sk.ptr m = some (0, w')
        ∧ w'.file = some
          (GUARD_IFNDEF ++ GUARD_DEF
            ++ ("#define KAA_RSA_PUBLIC_KEY_LENGTH  ".toList ++ fmt_zu n ++ "\n".toList)
            ++ ("#define KAA_RSA_PRIVATE_KEY_LENGTH ".toList ++ fmt_zu m ++ "\n\n\n".toList)
            ++ array_text KAA_RSA_PUBLIC_KEY (pk.val.drop (294 - n))
            ++ array_text KAA_RSA_PRIVATE_KEY (sk.val.drop (1200 - m))
            ++ ("#define KAA_SHA1_PUB_LEN ".toList ++ fmt_zu 20 ++ "\n".toList)
            ++ ("#define KAA_SHA1_PUB_BASE64_LEN ".toList
                  ++ fmt_zu (stored_base64 lib env keys).2.1 ++ "\n\n\n".toList)
            ++ array_text KAA_SHA1_PUB (stored_sha1 lib env keys).val
            ++ array_text KAA_SHA1_PUB_BASE64
                ((stored_base64 lib env keys).2.2.val.take (stored_base64 lib env keys).2.1)
            ++ GUARD_ENDIF) :=
  ⟨_, kaa_keys_store_eq lib env keys w pk sk n m ho hn hm hk hb, rfl⟩

theorem kaa_keys_store_layout_witness :
    sample_env.fopen_ok = true ∧ 5 ≤ KAA_RSA_PUBLIC_KEY_LENGTH_MAX
      ∧ 8 ≤ KAA_RSA_PRIVATE_KEY_LENGTH_MAX
      ∧ sample_keys.public_key_length ≤ KAA_RSA_PUBLIC_KEY_LENGTH_MAX
      ∧ (stored_base64 sample_lib sample_env sample_keys).2.1 ≤ 1024
      ∧ ∃ w' : World,
          kaa_keys_store sample_lib sample_env sample_keys sample_world
              sample_keys.public_key.ptr 5 sample_keys.private_key.ptr 8 = some (0, w')
            ∧ w'.file = some
              (GUARD_IFNDEF ++ GUARD_DEF
                ++ ("#define KAA_RSA_PUBLIC_KEY_LENGTH  ".toList ++ fmt_zu 5 ++ "\n".toList)
                ++ ("#define KAA_RSA_PRIVATE_KEY_LENGTH ".toList ++ fmt_zu 8
                      ++ "\n\n\n".toList)
                ++ array_text KAA_RSA_PUBLIC_KEY (sample_keys.public_key.val.drop (294 - 5))
                ++ array_text KAA_RSA_PRIVATE_KEY (sample_keys.private_key.val.drop (1200 - 8))
                ++ ("#define KAA_SHA1_PUB_LEN ".toList ++ fmt_zu 20 ++ "\n".toList)
                ++ ("#define KAA_SHA1_PUB_BASE64_LEN ".toList
                      ++ fmt_zu (stored_base64 sample_lib sample_env sample_keys).2.1
                      ++ "\n\n\n".toList)
                ++ array_text KAA_SHA1_PUB (stored_sha1 sample_lib sample_env sample_keys).val
                ++ array_text KAA_SHA1_PUB_BASE64
                    ((stored_base64 sample_lib sample_env sample_keys).2.2.val.take
                      (stored_base64 sample_lib sample_env sample_keys).2.1)
                ++ GUARD_ENDIF) :=
  ⟨rfl, by decide, by decide, by decide, sample_base64_fits,
    kaa_keys_store_layout sample_lib sample_env sample_keys sample_world
      sample_keys.public_key sample_keys.private_key 5 8 rfl (by decide) (by decide)
      (by decide) sample_base64_fits⟩

set_option maxRecDepth 1000000 in
set_option maxHeartbeats 4000000 in
/-- C7, as stated, fails on the sample run: in the file `main` writes, the public key array
starts at character 126 and the private key array at character 194, while the digest length
line starts at character 281 and the base64 length line at 309, after both arrays. -/
theorem digest_lengths_after_key_arrays :
    ((main sample_lib sample_env sample_world).bind fun r => r.2.file).map
        (fun f => (index_of KAA_RSA_PUBLIC_KEY f, index_of KAA_RSA_PRIVATE_KEY f,
          index_of "#define KAA_SHA1_PUB_LEN".toList f,
          index_of "#define KAA_SHA1_PUB_BASE64_LEN".toList f))
      = some (some 126, some 194, some 281, some 309) := by
  decide

/-- C8: when `prefix_size` characters are readable at the prefix and `length` bytes at `key`,
`store_key` appends to the stream the first `prefix_size` characters of the prefix, `{ `, for
each of the bytes in order the six characters `0xHH, ` with `HH` the two upper-case
hexadecimal digits of the byte, and ` };` with two newlines: `prefix_size + 2 + 6 * length + 5`
characters. -/
theorem store_key_format (fd pfx : List Char) (prefix_size : Nat) (key : Ptr) (length : Nat)
    (hp : prefix_size ≤ pfx.length) (h0 : 0 ≤ key.off)
    (h : key.off.toNat + length ≤ key.mem.length) :
    ∃ out : List Char,
      store_key fd pfx prefix_size key length = some (fd ++ out)
        ∧ out = pfx.take prefix_size ++ ['{', ' ']
            ++ (((key.mem.drop key.off.toNat).take length).flatMap fun b =>
                  ['0', 'x', hexDigitUpper (b.val / 16), hexDigitUpper (b.val % 16), ',', ' '])
            ++ [' ', '}', ';', '\n', '\n']
        ∧ out.length = prefix_size + 2 + 6 * length + 5 := by
  refine ⟨_, store_key_eq fd pfx prefix_size key length hp h0 h, rfl, ?_⟩
  have hl : ((key.mem.drop key.off.toNat).take length).length = length := by
    simp only [List.length_take, List.length_drop]; omega
  have h6 := length_flatMap_byte_literal ((key.mem.drop key.off.toNat).take length)
  rw [hl] at h6
  simp only [array_text, List.length_append, List.length_take, h6]
  have e1 : "\x7b ".toList.length = 2 := rfl
  have e2 : " \x7d;\n\n".toList.length = 5 := rfl
  rw [e1, e2]
  omega

theorem store_key_format_witness :
    3 ≤ "ab[] = ".toList.length ∧ 0 ≤ (Ptr.mk [0, 10, 255, 16] 1).off
      ∧ (Ptr.mk [0, 10, 255, 16] 1).off.toNat + 3 ≤ (Ptr.mk [0, 10, 255, 16] 1).mem.length
      ∧ ∃ out : List Char,
          store_key [] "ab[] = ".toList 3 (Ptr.mk [0, 10, 255, 16] 1) 3 = some ([] ++ out)
            ∧ out = "ab[] = ".toList.take 3 ++ ['{', ' ']
                ++ ((((Ptr.mk [0, 10, 255, 16] 1).mem.drop
                        (Ptr.mk [0, 10, 255, 16] 1).off.toNat).take 3).flatMap fun b =>
                      ['0', 'x', hexDigitUpper (b.val / 16), hexDigitUpper (b.val % 16), ',',
                        ' '])
                ++ [' ', '}', ';', '\n', '\n']
            ∧ out.length = 3 + 2 + 6 * 3 + 5 :=
  ⟨by decide, by decide, by decide,
    store_key_format [] "ab[] = ".toList 3 (Ptr.mk [0, 10, 255, 16] 1) 3 (by decide)
      (by decide) (by decide)⟩

/-- C9: with a standard padded base64 encoder, when the file opens and the lengths fit the
arrays, the base64 step of `kaa_keys_store` returns 0 for the destination of 1024 bytes, and a
reader of the header finds `KAA_SHA1_PUB_LEN` equal to 20 and `KAA_SHA1_PUB_BASE64_LEN` equal
to 28, four characters for each of the seven groups of three bytes. -/
theorem sha1_lengths_20_and_28 (lib : Mbedtls) (env : Env) (keys : endpoint_keys_t)
    (w : World) (pk : Buffer KAA_RSA_PUBLIC_KEY_LENGTH_MAX)
    (sk : Buffer KAA_RSA_PRIVATE_KEY_LENGTH_MAX) (n m : Nat) (ho : env.fopen_ok = true)
    (hn : n ≤ KAA_RSA_PUBLIC_KEY_LENGTH_MAX) (hm : m ≤ KAA_RSA_PRIVATE_KEY_LENGTH_MAX)
    (hk : keys.public_key_length ≤ KAA_RSA_PUBLIC_KEY_LENGTH_MAX)
    (hstd : standard_base64 lib) :
    ∃ (w' : World) (h : header),
      kaa_keys_store lib env keys w pk.ptr n sk.ptr m = some (0, w')
        ∧ w'.file.bind parse_header = some h
        ∧ h.sha1_len = 20 ∧ h.sha1_base64_len = 28 ∧ 28 = (20 + 2) / 3 * 4
        ∧ h.sha1.length = 20 ∧ h.sha1_base64.length = 28
        ∧ (lib.base64_encode 1024 (Buffer.zero 1024) 1024 h.sha1).1 = 0 := by
  obtain ⟨hr, ho28⟩ := stored_base64_standard lib env keys hstd
  obtain ⟨w', h1, h2⟩ := kaa_keys_store_parse lib env keys w pk sk n m ho hn hm hk
    (by rw [ho28]; decide)
  refine ⟨w', _, h1, h2, rfl, ho28, by decide, (stored_sha1 lib env keys).property, ?_, hr⟩
  simp only [stored_header, List.length_take, (stored_base64 lib env keys).2.2.property, ho28]
  decide

theorem sha1_lengths_20_and_28_witness :
    sample_env.fopen_ok = true ∧ 5 ≤ KAA_RSA_PUBLIC_KEY_LENGTH_MAX
      ∧ 8 ≤ KAA_RSA_PRIVATE_KEY_LENGTH_MAX
      ∧ sample_keys.public_key_length ≤ KAA_RSA_PUBLIC_KEY_LENGTH_MAX
      ∧ standard_base64 sample_lib
      ∧ ∃ (w' : World) (h : header),
          kaa_keys_store sample_lib sample_env sample_keys sample_world
              sample_keys.public_key.ptr 5 sample_keys.private_key.ptr 8 = some (0, w')
            ∧ w'.file.bind parse_header = some h
            ∧ h.sha1_len = 20 ∧ h.sha1_base64_len = 28 ∧ 28 = (20 + 2) / 3 * 4
            ∧ h.sha1.length = 20 ∧ h.sha1_base64.length = 28
            ∧ (sample_lib.base64_encode 1024 (Buffer.zero 1024) 1024 h.sha1).1 = 0 :=
  ⟨rfl, by decide, by decide, by decide, mbedtls_ref_standard 0 0 0 sample_pub sample_priv,
    sha1_lengths_20_and_28 sample_lib sample_env sample_keys sample_world
      sample_keys.public_key sample_keys.private_key 5 8 rfl (by decide) (by decide)
      (by decide) (mbedtls_ref_standard 0 0 0 sample_pub sample_priv)⟩

/-! ## The run of `main` -/

/-- The program `main` is the call of `kaa_keys_store` on the global `keys` left by
`rsa_keys_create`, followed by the choice of the exit status. -/
theorem main_eq_store (lib : Mbedtls) (env : Env) (w : World) :
    main lib env w
      = UB.bind
          (kaa_keys_store lib env (rsa_keys_create lib keys_at_start).2
            (world_after_keygen lib w)
            (rsa_keys_create lib keys_at_start).2.public_key.ptr
            (rsa_keys_create lib keys_at_start).2.public_key_length
            (rsa_keys_create lib keys_at_start).2.private_key.ptr
            (rsa_keys_create lib keys_at_start).2.private_key_length)
          (fun r => some (if r.1 ≠ 0 then EXIT_FAILURE else EXIT_SUCCESS,
            if r.1 ≠ 0 then printf "Error: Can't store the keys\n" r.2 else r.2)) := rfl

theorem size_t_of_int_le (k : Int) (n : Nat) (h0 : ¬ k < 0) (h : k ≤ (n : Int))
    (hn : n < 2 ^ 64) : size_t_of_int k ≤ n := by
  have e : k % 2 ^ 64 = k := Int.emod_eq_of_lt (by omega) (by omega)
  simp only [size_t_of_int, e]
  omega

/-- After `rsa_keys_create` the two lengths fit the arrays, whatever its outcome. -/
theorem rsa_keys_create_lengths (lib : Mbedtls) (hw : writers_bounded lib) :
    (rsa_keys_create lib keys_at_start).2.public_key_length ≤ KAA_RSA_PUBLIC_KEY_LENGTH_MAX
      ∧ (rsa_keys_create lib keys_at_start).2.private_key_length
          ≤ KAA_RSA_PRIVATE_KEY_LENGTH_MAX := by
  unfold rsa_keys_create
  split
  · exact ⟨Nat.le_refl _, Nat.le_refl _⟩
  · unfold kaa_write_keys
    simp only []
    split
    · exact ⟨Nat.le_refl _, Nat.le_refl _⟩
    · rename_i hpub
      have h1 := (hw _ keys_at_start.public_key keys_at_start.public_key_length).1
        (by omega)
      have hp : size_t_of_int
          (lib.pk_write_pubkey_der _ keys_at_start.public_key
            keys_at_start.public_key_length).1 ≤ KAA_RSA_PUBLIC_KEY_LENGTH_MAX :=
        size_t_of_int_le _ _ hpub h1 (by decide)
      split
      · exact ⟨hp, Nat.le_refl _⟩
      · rename_i hpriv
        refine ⟨hp, ?_⟩
        have h2 := (hw _ keys_at_start.private_key keys_at_start.private_key_length).2
          (by omega)
        exact size_t_of_int_le _ _ hpriv h2 (by decide)

/-- The outcome of `main` when the file opens. -/
theorem main_eq_of_open (lib : Mbedtls) (env : Env) (w : World) (ho : env.fopen_ok = true)
    (hw : writers_bounded lib)
    (hb : (stored_base64 lib env (rsa_keys_create lib keys_at_start).2).2.1 ≤ 1024) :
    ∃ w' : World, main lib env w = some (EXIT_SUCCESS, w')
      ∧ w'.file.bind parse_header
          = some (stored_header lib env (rsa_keys_create lib keys_at_start).2
              (rsa_keys_create lib keys_at_start).2.public_key
              (rsa_keys_create lib keys_at_start).2.private_key
              (rsa_keys_create lib keys_at_start).2.public_key_length
              (rsa_keys_create lib keys_at_start).2.private_key_length)
      ∧ w'.stdout = (world_after_keygen lib w).stdout
          ++ stored_stdout lib env (rsa_keys_create lib keys_at_start).2 := by
  obtain ⟨h1, h2⟩ := rsa_keys_create_lengths lib hw
  have he := kaa_keys_store_eq lib env (rsa_keys_create lib keys_at_start).2
    (world_after_keygen lib w) (rsa_keys_create lib keys_at_start).2.public_key
    (rsa_keys_create lib keys_at_start).2.private_key
    (rsa_keys_create lib keys_at_start).2.public_key_length
    (rsa_keys_create lib keys_at_start).2.private_key_length ho h1 h2 h1 hb
  have key : ∀ w1 : World,
      kaa_keys_store lib env (rsa_keys_create lib keys_at_start).2 (world_after_keygen lib w)
          (rsa_keys_create lib keys_at_start).2.public_key.ptr
          (rsa_keys_create lib keys_at_start).2.public_key_length
          (rsa_keys_create lib keys_at_start).2.private_key.ptr
          (rsa_keys_create lib keys_at_start).2.private_key_length = some (0, w1) →
        main lib env w = some (EXIT_SUCCESS, w1) := by
    intro w1 h
    rw [main_eq_store, h]
    rfl
  exact ⟨_, key _ he, by simp only [Option.some_bind, parse_header_text, stored_header], rfl⟩

theorem der_writer_bounded (der : List uint8_t) (cap : Nat) (buf : Buffer cap) (size : Nat)
    (h : 0 ≤ (der_writer der cap buf size).1) :
    (der_writer der cap buf size).1 ≤ (size : Int) := by
  unfold der_writer at h ⊢
  split
  · rename_i hfit
    simp only []
    omega
  · rename_i hfit
    rw [if_neg hfit] at h
    simp only [MBEDTLS_ERR_ASN1_BUF_TOO_SMALL] at h
    omega

theorem mbedtls_ref_writers_bounded (seed setup gen : Int) (pub priv : List uint8_t) :
    writers_bounded (mbedtls_ref seed setup gen pub priv) := by
  intro cap buf size
  exact ⟨der_writer_bounded pub cap buf size, der_writer_bounded priv cap buf size⟩

/-- C4, evaluated on a run in which seeding the random generator fails and the file opens:
`rsa_keys_create` returns -1, the failure is printed, and the exit status of `main` is
`EXIT_SUCCESS`, which is 0. -/
theorem exit_success_after_keygen_failure :
    rsa_genkey failing_lib = 1
      ∧ (rsa_keys_create failing_lib keys_at_start).1 = -1
      ∧ (main failing_lib sample_env sample_world).map (fun r => (r.1, r.2.stdout))
          = some (EXIT_SUCCESS, "Error: can't generate keys (-1)\n".toList)
      ∧ EXIT_SUCCESS = 0 := by
  have hstd := stored_base64_standard failing_lib sample_env
    (rsa_keys_create failing_lib keys_at_start).2 (mbedtls_ref_standard 1 0 0 sample_pub sample_priv)
  obtain ⟨w', h1, _, h3⟩ := main_eq_of_open failing_lib sample_env sample_world rfl
    (mbedtls_ref_writers_bounded 1 0 0 sample_pub sample_priv) (by rw [hstd.2]; decide)
  refine ⟨by decide, by decide, ?_, rfl⟩
  have hs : stored_stdout failing_lib sample_env (rsa_keys_create failing_lib keys_at_start).2
      = [] := by
    have hl : (rsa_keys_create failing_lib keys_at_start).2.public_key_length ≠ 0 := by decide
    simp only [stored_stdout, hl, hstd.1, if_false, ne_eq, not_true_eq_false, List.append_nil]
  have hw : (world_after_keygen failing_lib sample_world).stdout
      = "Error: can't generate keys (-1)\n".toList := by decide
  rw [h1, Option.map_some', h3, hs, hw, List.append_nil]

/-- C5: when the output file cannot be opened, `kaa_keys_store` returns -1 and leaves the
file and standard output as they were, whatever its arguments; and `main` ends with the exit
status `EXIT_FAILURE`, which is not 0, the file being as it was. -/
theorem fopen_failure_writes_nothing (lib : Mbedtls) (env : Env) (keys : endpoint_keys_t)
    (w : World) (public_key : Ptr) (public_key_length : Nat) (private_key : Ptr)
    (private_key_length : Nat) (hf : env.fopen_ok = false) :
    kaa_keys_store lib env keys w public_key public_key_length private_key private_key_length
        = some (-1, w)
      ∧ (∃ out : List Char,
          main lib env w = some (EXIT_FAILURE, { file := w.file, stdout := w.stdout ++ out }))
      ∧ EXIT_FAILURE ≠ 0 := by
  have hk : ∀ (keys : endpoint_keys_t) (w : World) (p q : Ptr) (n m : Nat),
      kaa_keys_store lib env keys w p n q m = some (-1, w) := by
    intro keys w p q n m
    simp only [kaa_keys_store, hf, Bool.false_eq_true, not_false_eq_true, if_true, UB.pure_eq]
  refine ⟨hk _ _ _ _ _ _, ?_, by decide⟩
  rw [main_eq_store, hk]
  by_cases hc : (rsa_keys_create lib keys_at_start).1 ≠ 0
  · refine ⟨"Error: can't generate keys (".toList
        ++ fmt_i (rsa_keys_create lib keys_at_start).1 ++ ")\n".toList
        ++ "Error: Can't store the keys\n".toList, ?_⟩
    simp [world_after_keygen, hc, printf, List.append_assoc]
  · refine ⟨"Error: Can't store the keys\n".toList, ?_⟩
    simp [world_after_keygen, hc, printf]

theorem fopen_failure_writes_nothing_witness :
    closed_env.fopen_ok = false
      ∧ kaa_keys_store sample_lib closed_env sample_keys sample_world
            sample_keys.public_key.ptr 5 sample_keys.private_key.ptr 8
          = some (-1, sample_world)
      ∧ (∃ out : List Char,
          main sample_lib closed_env sample_world
            = some (EXIT_FAILURE,
                { file := sample_world.file, stdout := sample_world.stdout ++ out }))
      ∧ EXIT_FAILURE ≠ 0 :=
  ⟨rfl, fopen_failure_writes_nothing sample_lib closed_env sample_keys sample_world
    sample_keys.public_key.ptr 5 sample_keys.private_key.ptr 8 rfl⟩

/-- C6: `sha1_from_public_key` called with a null key or with length 0 returns -1, leaves the
array `sha1` and the file as they were and only prints a message; called with a key that is
not null and a length above 0 it never returns an error, and when `length` bytes are readable
at the key (fewer than 2^31, so that the cast to `int` keeps the length) it returns 0 and
`sha1` holds the digest of these bytes. -/
theorem sha1_from_public_key_rejects_empty (lib : Mbedtls) (w : World) (key : Option Ptr)
    (length : Nat) (sha1 : Buffer SHA1_LENGTH) :
    (key = none ∨ length = 0 →
        sha1_from_public_key lib w key length sha1
          = some (-1, sha1,
              { file := w.file, stdout := w.stdout ++ "Can't generate sha1\n".toList }))
      ∧ (∀ p : Ptr, key = some p → 0 < length →
          ∀ r, sha1_from_public_key lib w key length sha1 = some r → r.1 = 0)
      ∧ (∀ p : Ptr, key = some p → 0 < length → length < 2 ^ 31 → 0 ≤ p.off →
          p.off.toNat + length ≤ p.mem.length →
          sha1_from_public_key lib w key length sha1
            = some (0, lib.sha1 ((p.mem.drop p.off.toNat).take length), w)) := by
  refine ⟨?_, ?_, ?_⟩
  · intro h
    cases key with
    | none => rfl
    | some p =>
      have hl : length = 0 := by
        rcases h with h | h
        · cases h
        · exact h
      simp only [sha1_from_public_key, hl, if_true, UB.pure_eq]
      rfl
  · intro p hp hpos r hr
    have hl : length ≠ 0 := by omega
    rw [hp] at hr
    simp only [sha1_from_public_key, hl, if_false] at hr
    cases hb : p.bytes (size_t_of_int (int_of_size_t length)) with
    | none =>
      rw [hb] at hr
      cases hr
    | some input =>
      rw [hb] at hr
      simp only [UB.bind_some, UB.pure_eq] at hr
      rw [← Option.some.inj hr]
  · intro p hp hpos hlt h0 hin
    have hl : length ≠ 0 := by omega
    rw [hp]
    simp only [sha1_from_public_key, hl, if_false, size_t_of_int_of_size_t _ hlt,
      Ptr.bytes_eq p h0 length hin, UB.bind_some, UB.pure_eq]

set_option maxRecDepth 100000 in
theorem sha1_from_public_key_rejects_empty_witness :
    ((some sample_keys.public_key.ptr = none ∨ 0 = 0) ∧
        sha1_from_public_key sample_lib sample_world (some sample_keys.public_key.ptr) 0
            sample_env.sha1_uninit
          = some (-1, sample_env.sha1_uninit,
              { file := sample_world.file,
                stdout := sample_world.stdout ++ "Can't generate sha1\n".toList }))
      ∧ ((0 < 5 ∧ 5 < 2 ^ 31 ∧ 0 ≤ sample_keys.public_key.ptr.off
          ∧ sample_keys.public_key.ptr.off.toNat + 5 ≤ sample_keys.public_key.ptr.mem.length) ∧
        sha1_from_public_key sample_lib sample_world (some sample_keys.public_key.ptr) 5
            sample_env.sha1_uninit
          = some (0,
              sample_lib.sha1
                ((sample_keys.public_key.ptr.mem.drop
                  sample_keys.public_key.ptr.off.toNat).take 5),
              sample_world)) :=
  ⟨⟨Or.inr rfl,
      (sha1_from_public_key_rejects_empty sample_lib sample_world
        (some sample_keys.public_key.ptr) 0 sample_env.sha1_uninit).1 (Or.inr rfl)⟩,
    ⟨⟨by decide, by decide, by decide, by decide⟩,
      (sha1_from_public_key_rejects_empty sample_lib sample_world
        (some sample_keys.public_key.ptr) 5 sample_env.sha1_uninit).2.2
        sample_keys.public_key.ptr rfl (by decide) (by decide) (by decide) (by decide)⟩⟩

/-- C10: when each DER writer on success returns a length no greater than the size it was
given, then whatever the outcome of `rsa_keys_create`, the lengths `main` passes to
`kaa_keys_store` are at most 294 and 1200, the offsets of the ends of the two buffers are not
negative, and every byte `store_key` reads for the two keys lies inside its buffer. -/
theorem main_key_lengths_in_bounds (lib : Mbedtls) (hw : writers_bounded lib) :
    (∀ (env : Env) (w : World),
        main lib env w
          = UB.bind
              (kaa_keys_store lib env (rsa_keys_create lib keys_at_start).2
                (world_after_keygen lib w)
                (rsa_keys_create lib keys_at_start).2.public_key.ptr
                (rsa_keys_create lib keys_at_start).2.public_key_length
                (rsa_keys_create lib keys_at_start).2.private_key.ptr
                (rsa_keys_create lib keys_at_start).2.private_key_length)
              (fun r => some (if r.1 ≠ 0 then EXIT_FAILURE else EXIT_SUCCESS,
                if r.1 ≠ 0 then printf "Error: Can't store the keys\n" r.2 else r.2)))
      ∧ (rsa_keys_create lib keys_at_start).2.public_key_length ≤ 294
      ∧ (rsa_keys_create lib keys_at_start).2.private_key_length ≤ 1200
      ∧ 0 ≤ (294 : Int) - (rsa_keys_create lib keys_at_start).2.public_key_length
      ∧ 0 ≤ (1200 : Int) - (rsa_keys_create lib keys_at_start).2.private_key_length
      ∧ (∀ i : Nat, i < (rsa_keys_create lib keys_at_start).2.public_key_length →
          (((rsa_keys_create lib keys_at_start).2.public_key.ptr.add
              KAA_RSA_PUBLIC_KEY_LENGTH_MAX).add
            (-((rsa_keys_create lib keys_at_start).2.public_key_length : Int))).read i
            = (rsa_keys_create lib keys_at_start).2.public_key.val[
                294 - (rsa_keys_create lib keys_at_start).2.public_key_length + i]?
          ∧ 294 - (rsa_keys_create lib keys_at_start).2.public_key_length + i < 294)
      ∧ (∀ i : Nat, i < (rsa_keys_create lib keys_at_start).2.private_key_length →
          (((rsa_keys_create lib keys_at_start).2.private_key.ptr.add
              KAA_RSA_PRIVATE_KEY_LENGTH_MAX).add
            (-((rsa_keys_create lib keys_at_start).2.private_key_length : Int))).read i
            = (rsa_keys_create lib keys_at_start).2.private_key.val[
                1200 - (rsa_keys_create lib keys_at_start).2.private_key_length + i]?
          ∧ 1200 - (rsa_keys_create lib keys_at_start).2.private_key_length + i < 1200) := by
  obtain ⟨h1, h2⟩ := rsa_keys_create_lengths lib hw
  simp only [KAA_RSA_PUBLIC_KEY_LENGTH_MAX, KAA_RSA_PRIVATE_KEY_LENGTH_MAX] at h1 h2
  refine ⟨fun env w => main_eq_store lib env w, h1, h2, by omega, by omega, ?_, ?_⟩
  · intro i hi
    refine ⟨?_, by omega⟩
    rw [Ptr.read_eq _ _ (by simp only [Ptr.add, Buffer.ptr, KAA_RSA_PUBLIC_KEY_LENGTH_MAX]; omega)]
    congr 1
    simp only [Ptr.add, Buffer.ptr, KAA_RSA_PUBLIC_KEY_LENGTH_MAX]
    omega
  · intro i hi
    refine ⟨?_, by omega⟩
    rw [Ptr.read_eq _ _ (by simp only [Ptr.add, Buffer.ptr, KAA_RSA_PRIVATE_KEY_LENGTH_MAX]; omega)]
    congr 1
    simp only [Ptr.add, Buffer.ptr, KAA_RSA_PRIVATE_KEY_LENGTH_MAX]
    omega

theorem main_key_lengths_in_bounds_witness :
    writers_bounded sample_lib
      ∧ (rsa_keys_create sample_lib keys_at_start).2.public_key_length ≤ 294
      ∧ (rsa_keys_create sample_lib keys_at_start).2.private_key_length ≤ 1200
      ∧ 0 ≤ (294 : Int) - (rsa_keys_create sample_lib keys_at_start).2.public_key_length
      ∧ 0 ≤ (1200 : Int) - (rsa_keys_create sample_lib keys_at_start).2.private_key_length :=
  ⟨mbedtls_ref_writers_bounded 0 0 0 sample_pub sample_priv,
    (main_key_lengths_in_bounds sample_lib
      (mbedtls_ref_writers_bounded 0 0 0 sample_pub sample_priv)).2.1,
    (main_key_lengths_in_bounds sample_lib
      (mbedtls_ref_writers_bounded 0 0 0 sample_pub sample_priv)).2.2.1,
    (main_key_lengths_in_bounds sample_lib
      (mbedtls_ref_writers_bounded 0 0 0 sample_pub sample_priv)).2.2.2.1,
    (main_key_lengths_in_bounds sample_lib
      (mbedtls_ref_writers_bounded 0 0 0 sample_pub sample_priv)).2.2.2.2.1⟩

end Kaa
